import Mathlib

set_option maxHeartbeats 1000000

/-!
Verification development for the chunk-based container demuxer
(`sonata-format-wav/src/chunks.rs`, `symphonia-format-aiff/src/chunks.rs`,
`symphonia-format-aiff/src/lib.rs`, `symphonia-format-aiff/src/util.rs`).

Modelling conventions:
- Machine integers are `Nat` with explicit wrapping (`% 2^32`) exactly where the
  Rust code performs `u32` arithmetic that can wrap in release builds; Rust
  `saturating_add` is modelled by `satAdd`.
- The byte stream (`MediaSourceStream` / `ByteStream`) is modelled as a full
  byte list plus a cursor (`MSS`); reads fail with an IO error at end of
  stream, mirroring the collaborator interfaces described by the spec. The
  model stream is random-access (seekable).
- Fallible Rust code returning `Result` is modelled with `Res`; Rust panics
  (`unwrap` on `None`/`Err`, `unreachable!`, the `panic!` in `util.rs`,
  fallible `try_into().unwrap()` conversions) are modelled by the distinct
  outcome `Res.panicked`.
- `i16`/`i32` values read from the stream are modelled by their unsigned bit
  patterns (the code only compares them against small positive constants or
  reinterprets them as unsigned).
-/

/-- Error taxonomy of the demuxer layer: decode (malformed), unsupported,
propagated IO failure, the end-of-stream signal of packet iteration, and the
three seek error kinds. -/
inductive ParseErr where
  | decodeError (msg : String)
  | unsupportedError (msg : String)
  | ioError
  | endOfStream
  | seekUnseekable
  | seekOutOfRange
  | seekForwardOnly
deriving DecidableEq

/-- Outcome of running a piece of the demuxer: a value, a propagated error, or
a Rust panic. -/
inductive Res (α : Type) where
  | ok (a : α)
  | err (e : ParseErr)
  | panicked
deriving DecidableEq

def Res.bind {α β : Type} : Res α → (α → Res β) → Res β
  | .ok a, f => f a
  | .err e, _ => .err e
  | .panicked, _ => .panicked

instance : Monad Res where
  pure := Res.ok
  bind := Res.bind

@[simp] theorem Res.bind_ok {α β : Type} (a : α) (f : α → Res β) :
    Res.bind (.ok a) f = f a := rfl

@[simp] theorem Res.bind_err {α β : Type} (e : ParseErr) (f : α → Res β) :
    Res.bind (.err e) f = .err e := rfl

@[simp] theorem Res.bind_panicked {α β : Type} (f : α → Res β) :
    Res.bind .panicked f = .panicked := rfl

@[simp] theorem Res.pure_eq {α : Type} (a : α) : (pure a : Res α) = .ok a := rfl

@[simp] theorem Res.bind_eq {α β : Type} (x : Res α) (f : α → Res β) :
    x >>= f = Res.bind x f := rfl

/-- Byte stream model: the full underlying byte sequence and the cursor
position. Models the random-access `MediaSourceStream`/`ByteStream`
collaborators (read fixed-width integers, read N bytes, skip N bytes, report
position, seek). -/
structure MSS where
  data : List Nat
  pos : Nat
deriving DecidableEq

/-- Advance the cursor by `n` bytes. -/
def MSS.adv (s : MSS) (n : Nat) : MSS := { s with pos := s.pos + n }

/-- Read exactly `n` raw bytes, failing with an IO error at end of stream. -/
def readBytes (n : Nat) (s : MSS) : Res (List Nat × MSS) :=
  let bs := (s.data.drop s.pos).take n
  if bs.length = n then .ok (bs, s.adv n) else .err .ioError

/-- Little-endian value of a byte list. -/
def leVal : List Nat → Nat
  | [] => 0
  | b :: r => b + 256 * leVal r

/-- Big-endian value of a byte list. -/
def beVal (l : List Nat) : Nat := l.foldl (fun a b => 256 * a + b) 0

def readU8 (s : MSS) : Res (Nat × MSS) :=
  match readBytes 1 s with
  | .ok (bs, s) => .ok (leVal bs, s)
  | .err e => .err e
  | .panicked => .panicked

def readU16le (s : MSS) : Res (Nat × MSS) :=
  match readBytes 2 s with
  | .ok (bs, s) => .ok (leVal bs, s)
  | .err e => .err e
  | .panicked => .panicked

def readU32le (s : MSS) : Res (Nat × MSS) :=
  match readBytes 4 s with
  | .ok (bs, s) => .ok (leVal bs, s)
  | .err e => .err e
  | .panicked => .panicked

def readU16be (s : MSS) : Res (Nat × MSS) :=
  match readBytes 2 s with
  | .ok (bs, s) => .ok (beVal bs, s)
  | .err e => .err e
  | .panicked => .panicked

def readU32be (s : MSS) : Res (Nat × MSS) :=
  match readBytes 4 s with
  | .ok (bs, s) => .ok (beVal bs, s)
  | .err e => .err e
  | .panicked => .panicked

/-- Skip `n` bytes (`ignore_bytes`), failing at end of stream. -/
def ignoreBytes (n : Nat) (s : MSS) : Res (Unit × MSS) :=
  match readBytes n s with
  | .ok (_, s) => .ok ((), s)
  | .err e => .err e
  | .panicked => .panicked

/-- Read exactly `n` raw bytes where the source calls `.unwrap()` on the read
result, so a short read is a panic rather than a propagated error. -/
def readBytesPanic (n : Nat) (s : MSS) : Res (List Nat × MSS) :=
  match readBytes n s with
  | .ok x => .ok x
  | _ => .panicked

/-- Model of `util::read_i16_be`: reads 2 big-endian bytes and panics on a
read failure (`panic!` in `util.rs`); the `i16` is kept as its 16-bit pattern. -/
def read_i16_be (s : MSS) : Res (Nat × MSS) :=
  match readBytesPanic 2 s with
  | .ok (bs, s) => .ok (beVal bs, s)
  | .err e => .err e
  | .panicked => .panicked

/-- Model of `util::read_i32_be`: reads 4 big-endian bytes and panics on a
read failure; the `i32` is kept as its 32-bit pattern (every use site
reinterprets it with `as u32`). -/
def read_i32_be (s : MSS) : Res (Nat × MSS) :=
  match readBytesPanic 4 s with
  | .ok (bs, s) => .ok (beVal bs, s)
  | .err e => .err e
  | .panicked => .panicked

/-- Little-endian encoding of a 16-bit value. -/
def u16le (n : Nat) : List Nat := [n % 256, n / 256 % 256]

/-- Little-endian encoding of a 32-bit value. -/
def u32le (n : Nat) : List Nat :=
  [n % 256, n / 256 % 256, n / 65536 % 256, n / 16777216 % 256]

/-- Big-endian encoding of a 32-bit value. -/
def u32be (n : Nat) : List Nat :=
  [n / 16777216 % 256, n / 65536 % 256, n / 256 % 256, n % 256]

/-- Big-endian encoding of a 16-bit value. -/
def u16be (n : Nat) : List Nat := [n / 256 % 256, n % 256]

def u32Mod : Nat := 4294967296

def u32Max : Nat := 4294967295

/-- Wrapping `u32` addition (release-mode Rust semantics for `+`). -/
def wadd (a b : Nat) : Nat := (a + b) % u32Mod

/-- Wrapping `u32` subtraction (release-mode Rust semantics for `-`); both
arguments are `u32` values below `2^32`. -/
def wsub (a b : Nat) : Nat := (a + u32Mod - b) % u32Mod

/-- `u32::saturating_add`. -/
def satAdd (a b : Nat) : Nat := min (a + b) u32Max

/-- The traversal-engine region state (`ChunksReader` minus the phantom): the
region's declared total length and the bytes accounted for so far. -/
structure ChunksState where
  len : Nat
  consumed : Nat
deriving DecidableEq

/-- Shared first step of both `ChunksReader::next` loops: if `consumed` is odd,
consume one pad byte to align to the next 2-byte boundary. -/
def padStep (st : ChunksState) (s : MSS) : Res (ChunksState × MSS) :=
  if st.consumed % 2 = 1 then
    match readU8 s with
    | .ok (_, s) => .ok (⟨st.len, wadd st.consumed 1⟩, s)
    | .err e => .err e
    | .panicked => .panicked
  else .ok (st, s)

def tagFMT : List Nat := [102, 109, 116, 32]

def tagLIST : List Nat := [76, 73, 83, 84]

def tagFACT : List Nat := [102, 97, 99, 116]

def tagDATA : List Nat := [100, 97, 116, 97]

/-- The recognized chunk kinds of the WAV reader (`RiffWaveChunks`); each lazy
handle carries the tag and the declared length, as `ChunkParser` does. -/
inductive RiffWaveChunks where
  | format (tag : List Nat) (len : Nat)
  | list (tag : List Nat) (len : Nat)
  | fact (tag : List Nat) (len : Nat)
  | data (tag : List Nat) (len : Nat)
deriving DecidableEq

/-- `RiffWaveChunks::parse_tag`: the pluggable tag-to-kind mapping of the WAV
reader. -/
def riffWaveParseTag (tag : List Nat) (len : Nat) : Option RiffWaveChunks :=
  if tag = tagFMT then some (.format tag len)
  else if tag = tagLIST then some (.list tag len)
  else if tag = tagFACT then some (.fact tag len)
  else if tag = tagDATA then some (.data tag len)
  else none

/-- Model of `ChunksReader::next` from `sonata-format-wav/src/chunks.rs`.
`fuel` bounds the loop iterations (each full iteration accounts for at least
8 region bytes, so any fuel above `len` is enough); fuel exhaustion is
reported as an IO error and is never hit by the theorems below. -/
def wavNext : Nat → ChunksState → MSS →
    Res (Option RiffWaveChunks × ChunksState × MSS)
  | 0, _, _ => .err .ioError
  | fuel + 1, st, s =>
    match padStep st s with
    | .err e => .err e
    | .panicked => .panicked
    | .ok (st, s) =>
      -- Check if there are enough bytes for another chunk.
      if wadd st.consumed 8 > st.len then .ok (none, st, s)
      else
        match readBytes 4 s with
        | .err e => .err e
        | .panicked => .panicked
        | .ok (tag, s) =>
          match readU32le s with
          | .err e => .err e
          | .panicked => .panicked
          | .ok (len, s) =>
            let st : ChunksState := ⟨st.len, wadd st.consumed 8⟩
            -- Validate the chunk length against the unread region bytes.
            if wsub st.len st.consumed < len then
              .err (.decodeError "Info chunk length exceeds parent List chunk length.")
            else
              let st : ChunksState := ⟨st.len, wadd st.consumed len⟩
              match riffWaveParseTag tag len with
              | some chunk => .ok (some chunk, st, s)
              | none =>
                -- As per the RIFF spec, unknown chunks are ignored and skipped.
                match ignoreBytes len s with
                | .err e => .err e
                | .panicked => .panicked
                | .ok (_, s) => wavNext fuel st s

/-- Model of `ChunksReader::finish` from `sonata-format-wav/src/chunks.rs`. -/
def wavFinish (st : ChunksState) (s : MSS) : Res (Unit × ChunksState × MSS) :=
  match (if st.consumed < st.len then
           match ignoreBytes (wsub st.len st.consumed) s with
           | .ok (_, s) => .ok (⟨st.len, wadd st.consumed (wsub st.len st.consumed)⟩, s)
           | .err e => .err e
           | .panicked => .panicked
         else .ok (st, s) : Res (ChunksState × MSS)) with
  | .err e => .err e
  | .panicked => .panicked
  | .ok (st, s) =>
    if st.len % 2 = 1 then
      match readU8 s with
      | .ok (_, s) => .ok ((), st, s)
      | .err e => .err e
      | .panicked => .panicked
    else .ok ((), st, s)

/-- Marker `AIFF_DATA_MARKER` (`b"FORM"`) from `symphonia-format-aiff/src/lib.rs`. -/
def idFORM : List Nat := [70, 79, 82, 77]

/-- Modelled from the spec: the chunk identifier constants of `ids.rs` are not
under `src/` (the module is only declared and referenced); the byte values
follow the IFF/AIFF container convention the spec describes (common/format
chunk, sound-data chunk, text chunks, comments, ID3, form types). -/
def idCOMM : List Nat := [67, 79, 77, 77]

/-- Modelled from the spec: see `idCOMM`. -/
def idCOMT : List Nat := [67, 79, 77, 84]

/-- Modelled from the spec: see `idCOMM`. -/
def idID3 : List Nat := [73, 68, 51, 32]

/-- Modelled from the spec: see `idCOMM`. -/
def idNAME : List Nat := [78, 65, 77, 69]

/-- Modelled from the spec: see `idCOMM`. -/
def idAUTH : List Nat := [65, 85, 84, 72]

/-- Modelled from the spec: see `idCOMM`. -/
def idCOPY : List Nat := [40, 99, 41, 32]

/-- Modelled from the spec: see `idCOMM`. -/
def idANNO : List Nat := [65, 78, 78, 79]

/-- Modelled from the spec: see `idCOMM`. -/
def idSSND : List Nat := [83, 83, 78, 68]

/-- Modelled from the spec: see `idCOMM`. -/
def idAIFF : List Nat := [65, 73, 70, 70]

/-- Modelled from the spec: see `idCOMM`. -/
def idAIFC : List Nat := [65, 73, 70, 67]

/-- The recognized chunk kinds of the AIFF reader (`AiffChunks`); each lazy
handle carries the tag and the declared length. -/
inductive AiffChunks where
  | common (tag : List Nat) (len : Nat)
  | comment (tag : List Nat) (len : Nat)
  | id3 (tag : List Nat) (len : Nat)
  | name (tag : List Nat) (len : Nat)
  | sound (tag : List Nat) (len : Nat)
deriving DecidableEq

/-- `AiffChunks::parse_tag`: the tag-to-kind mapping of the AIFF reader. -/
def aiffParseTag (tag : List Nat) (len : Nat) : Option AiffChunks :=
  if tag = idCOMM then some (.common tag len)
  else if tag = idCOMT then some (.comment tag len)
  else if tag = idID3 then some (.id3 tag len)
  else if tag = idNAME then some (.name tag len)
  else if tag = idSSND then some (.sound tag len)
  else none

/-- Model of `ChunksReader::next` from `symphonia-format-aiff/src/chunks.rs`.
Differences from the WAV reader, all present in the source: the length is read
big-endian through `util::read_i32_be` (which panics on a short read) and cast
to `u32`; the 8 header bytes are never added to `consumed` (that line is
commented out); a declared length exceeding the remaining region bytes is
accepted when both the region total and the length equal `u32::MAX`;
`consumed` is updated with `saturating_add`; and an unrecognized tag returns
`Ok(None)` immediately (the skip-and-continue code is commented out), so the
loop body never repeats. -/
def aiffNext (st : ChunksState) (s : MSS) :
    Res (Option AiffChunks × ChunksState × MSS) :=
  match padStep st s with
  | .err e => .err e
  | .panicked => .panicked
  | .ok (st, s) =>
    if wadd st.consumed 8 > st.len then .ok (none, st, s)
    else
      match readBytes 4 s with
      | .err e => .err e
      | .panicked => .panicked
      | .ok (tag, s) =>
        match read_i32_be s with
        | .err e => .err e
        | .panicked => .panicked
        | .ok (len, s) =>
          let cont : Res (Option AiffChunks × ChunksState × MSS) :=
            let st : ChunksState := ⟨st.len, satAdd st.consumed len⟩
            match aiffParseTag tag len with
            | some chunk => .ok (some chunk, st, s)
            | none => .ok (none, st, s)
          if wsub st.len st.consumed < len then
            -- ffmpeg writes (2^32)-1 on both the parent and the data chunk
            -- when the size cannot be known ahead of time.
            if ¬(st.len = len ∧ len = u32Max) then
              .err (.decodeError "wav: chunk length exceeds parent (list) chunk length")
            else cont
          else cont

/-- Model of `ChunksReader::finish` from `symphonia-format-aiff/src/chunks.rs`
(textually identical to the WAV reader's `finish`). -/
def aiffFinish (st : ChunksState) (s : MSS) : Res (Unit × ChunksState × MSS) :=
  match (if st.consumed < st.len then
           match ignoreBytes (wsub st.len st.consumed) s with
           | .ok (_, s) => .ok (⟨st.len, wadd st.consumed (wsub st.len st.consumed)⟩, s)
           | .err e => .err e
           | .panicked => .panicked
         else .ok (st, s) : Res (ChunksState × MSS)) with
  | .err e => .err e
  | .panicked => .panicked
  | .ok (st, s) =>
    if st.len % 2 = 1 then
      match readU8 s with
      | .ok (_, s) => .ok ((), st, s)
      | .err e => .err e
      | .panicked => .panicked
    else .ok ((), st, s)

/-- Modelled from the spec: the `Channels` bitmask type lives in the external
core library; the spec describes it as an ordered set of named speaker
positions, which we model as a `Nat` bitmask with one bit per position, in the
order the core library declares them. -/
def CH_FRONT_LEFT : Nat := 1

/-- Modelled from the spec: see `CH_FRONT_LEFT`. -/
def CH_FRONT_RIGHT : Nat := 2

/-- Modelled from the spec: see `CH_FRONT_LEFT`. -/
def CH_FRONT_CENTRE : Nat := 4

/-- Modelled from the spec: see `CH_FRONT_LEFT`. -/
def CH_LFE1 : Nat := 8

/-- Modelled from the spec: see `CH_FRONT_LEFT`. -/
def CH_REAR_LEFT : Nat := 16

/-- Modelled from the spec: see `CH_FRONT_LEFT`. -/
def CH_REAR_RIGHT : Nat := 32

/-- Modelled from the spec: see `CH_FRONT_LEFT`. -/
def CH_FRONT_LEFT_CENTRE : Nat := 64

/-- Modelled from the spec: see `CH_FRONT_LEFT`. -/
def CH_FRONT_RIGHT_CENTRE : Nat := 128

/-- Modelled from the spec: see `CH_FRONT_LEFT`. -/
def CH_REAR_CENTRE : Nat := 256

/-- Modelled from the spec: see `CH_FRONT_LEFT`. -/
def CH_SIDE_LEFT : Nat := 512

/-- Modelled from the spec: see `CH_FRONT_LEFT`. -/
def CH_SIDE_RIGHT : Nat := 1024

/-- Modelled from the spec: see `CH_FRONT_LEFT`. -/
def CH_TOP_CENTRE : Nat := 2048

/-- Modelled from the spec: see `CH_FRONT_LEFT`. -/
def CH_TOP_FRONT_LEFT : Nat := 4096

/-- Modelled from the spec: see `CH_FRONT_LEFT`. -/
def CH_TOP_FRONT_CENTRE : Nat := 8192

/-- Modelled from the spec: see `CH_FRONT_LEFT`. -/
def CH_TOP_FRONT_RIGHT : Nat := 16384

/-- Modelled from the spec: see `CH_FRONT_LEFT`. -/
def CH_TOP_REAR_LEFT : Nat := 32768

/-- Modelled from the spec: see `CH_FRONT_LEFT`. -/
def CH_TOP_REAR_CENTRE : Nat := 65536

/-- Modelled from the spec: see `CH_FRONT_LEFT`. -/
def CH_TOP_REAR_RIGHT : Nat := 131072

/-- `map_wave_channels` from `sonata-format-wav/src/chunks.rs`: maps each of
the 18 defined `SPEAKER_*` mask bits independently to the named channel. -/
def map_wave_channels (channel_mask : Nat) : Nat :=
  let c : Nat := 0
  let c := if channel_mask &&& 1 ≠ 0 then c ||| CH_FRONT_LEFT else c
  let c := if channel_mask &&& 2 ≠ 0 then c ||| CH_FRONT_RIGHT else c
  let c := if channel_mask &&& 4 ≠ 0 then c ||| CH_FRONT_CENTRE else c
  let c := if channel_mask &&& 8 ≠ 0 then c ||| CH_LFE1 else c
  let c := if channel_mask &&& 16 ≠ 0 then c ||| CH_REAR_LEFT else c
  let c := if channel_mask &&& 32 ≠ 0 then c ||| CH_REAR_RIGHT else c
  let c := if channel_mask &&& 64 ≠ 0 then c ||| CH_FRONT_LEFT_CENTRE else c
  let c := if channel_mask &&& 128 ≠ 0 then c ||| CH_FRONT_RIGHT_CENTRE else c
  let c := if channel_mask &&& 256 ≠ 0 then c ||| CH_REAR_CENTRE else c
  let c := if channel_mask &&& 512 ≠ 0 then c ||| CH_SIDE_LEFT else c
  let c := if channel_mask &&& 1024 ≠ 0 then c ||| CH_SIDE_RIGHT else c
  let c := if channel_mask &&& 2048 ≠ 0 then c ||| CH_TOP_CENTRE else c
  let c := if channel_mask &&& 4096 ≠ 0 then c ||| CH_TOP_FRONT_LEFT else c
  let c := if channel_mask &&& 8192 ≠ 0 then c ||| CH_TOP_FRONT_CENTRE else c
  let c := if channel_mask &&& 16384 ≠ 0 then c ||| CH_TOP_FRONT_RIGHT else c
  let c := if channel_mask &&& 32768 ≠ 0 then c ||| CH_TOP_REAR_LEFT else c
  let c := if channel_mask &&& 65536 ≠ 0 then c ||| CH_TOP_REAR_CENTRE else c
  let c := if channel_mask &&& 131072 ≠ 0 then c ||| CH_TOP_REAR_RIGHT else c
  c

/-- Modelled from the spec: the codec identifiers live in the external core
library's registry; we model them as an enumeration of the identifiers the two
readers use. -/
inductive CodecType where
  | pcmU8
  | pcmS16le
  | pcmS24le
  | pcmS32le
  | pcmF32le
  | pcmF64le
  | pcmAlaw
  | pcmMulaw
  | pcmS16be
  | pcmS24be
  | pcmS32be
  | pcmF32be
  | pcmF64be
deriving DecidableEq

structure WaveFormatPcm where
  bits_per_sample : Nat
  channels : Nat
  codec : CodecType
deriving DecidableEq

structure WaveFormatIeeeFloat where
  channels : Nat
  codec : CodecType
deriving DecidableEq

structure WaveFormatExtensible where
  bits_per_sample : Nat
  bits_per_coded_sample : Nat
  channels : Nat
  sub_format_guid : List Nat
  codec : CodecType
deriving DecidableEq

structure WaveFormatALaw where
  channels : Nat
  codec : CodecType
deriving DecidableEq

structure WaveFormatMuLaw where
  channels : Nat
  codec : CodecType
deriving DecidableEq

inductive WaveFormatData where
  | pcm (d : WaveFormatPcm)
  | ieeeFloat (d : WaveFormatIeeeFloat)
  | extensible (d : WaveFormatExtensible)
  | alaw (d : WaveFormatALaw)
  | mulaw (d : WaveFormatMuLaw)
deriving DecidableEq

structure WaveFormatChunk where
  n_channels : Nat
  sample_rate : Nat
  avg_bytes_per_sec : Nat
  block_align : Nat
  format_data : WaveFormatData
deriving DecidableEq

/-- `WaveFormatChunk::read_pcm_fmt`: PCM (0x0001) format-chunk payload rules. -/
def WaveFormatChunk.read_pcm_fmt (reader : MSS) (bits_per_sample n_channels : Nat)
    (len : Nat) : Res (WaveFormatData × MSS) := do
  let is_extended ←
    if len = 16 then pure false
    else if len = 18 then pure true
    else if len = 40 then pure true
    else Res.err (.decodeError "Malformed fmt_pcm chunk.")
  let reader ←
    if is_extended then do
      let (extra_size, reader) ← readU16le reader
      if extra_size > 0 then do
        let (_, reader) ← ignoreBytes extra_size reader
        pure reader
      else pure reader
    else pure reader
  let codec ←
    if bits_per_sample = 8 then pure CodecType.pcmU8
    else if bits_per_sample = 16 then pure CodecType.pcmS16le
    else if bits_per_sample = 24 then pure CodecType.pcmS24le
    else if bits_per_sample = 32 then pure CodecType.pcmS32le
    else Res.err (.decodeError "Bits per sample for fmt_pcm must be 8, 16, 24 or 32 bits.")
  let channels ←
    if n_channels = 1 then pure CH_FRONT_LEFT
    else if n_channels = 2 then pure (CH_FRONT_LEFT ||| CH_FRONT_RIGHT)
    else Res.err (.decodeError "Only mono and stereo channel layouts are supported for fmt_pcm.")
  pure (.pcm ⟨bits_per_sample, channels, codec⟩, reader)

/-- `WaveFormatChunk::read_ieee_fmt`: IEEE float (0x0003) format-chunk rules. -/
def WaveFormatChunk.read_ieee_fmt (reader : MSS) (bits_per_sample n_channels : Nat)
    (len : Nat) : Res (WaveFormatData × MSS) := do
  let reader ←
    if len = 18 then do
      let (extra_size, reader) ← readU16le reader
      if extra_size ≠ 0 then Res.err (.decodeError "Extra data not expected for fmt_ieee chunk.")
      else pure reader
    else if len > 16 then Res.err (.decodeError "Malformed fmt_ieee chunk.")
    else pure reader
  let codec ←
    if bits_per_sample = 32 then pure CodecType.pcmF32le
    else if bits_per_sample = 64 then pure CodecType.pcmF64le
    else Res.err (.decodeError "Bits per sample for fmt_ieee must be 32 or 64 bits.")
  let channels ←
    if n_channels = 1 then pure CH_FRONT_LEFT
    else if n_channels = 2 then pure (CH_FRONT_LEFT ||| CH_FRONT_RIGHT)
    else Res.err (.decodeError "Only mono and stereo channel layouts are supported for fmt_ieee.")
  pure (.ieeeFloat ⟨channels, codec⟩, reader)

/-- `KSDATAFORMAT_SUBTYPE_PCM` from `read_ext_fmt`. -/
def guidPCM : List Nat :=
  [1, 0, 0, 0, 0, 0, 16, 0, 128, 0, 0, 170, 0, 56, 155, 113]

/-- `KSDATAFORMAT_SUBTYPE_IEEE_FLOAT` from `read_ext_fmt`. -/
def guidIEEE : List Nat :=
  [3, 0, 0, 0, 0, 0, 16, 0, 128, 0, 0, 170, 0, 56, 155, 113]

/-- `KSDATAFORMAT_SUBTYPE_ALAW` from `read_ext_fmt`. -/
def guidALAW : List Nat :=
  [6, 0, 0, 0, 0, 0, 16, 0, 128, 0, 0, 170, 0, 56, 155, 113]

/-- `KSDATAFORMAT_SUBTYPE_MULAW` from `read_ext_fmt`. -/
def guidMULAW : List Nat :=
  [4, 0, 0, 0, 0, 0, 16, 0, 128, 0, 0, 170, 0, 56, 155, 113]

/-- `WaveFormatChunk::read_ext_fmt`: extensible (0xFFFE) format-chunk rules.
The `unreachable!()` in the PCM sub-type codec match is modelled as a panic
(it is reachable at `bits_per_coded_sample = 0`, which is a multiple of 8). -/
def WaveFormatChunk.read_ext_fmt (reader : MSS) (bits_per_coded_sample : Nat)
    (len : Nat) : Res (WaveFormatData × MSS) := do
  if len < 40 then Res.err (.decodeError "Malformed fmt_ext chunk.")
  else do
    let (extra_size, reader) ← readU16le reader
    if extra_size ≠ 22 then Res.err (.decodeError "Extra data size not 22 bytes for fmt_ext chunk.")
    else do
      let (bits_per_sample, reader) ← readU16le reader
      if bits_per_coded_sample &&& 7 ≠ 0 then
        Res.err (.decodeError "Bits per coded sample for fmt_ext must be a multiple of 8 bits.")
      else if bits_per_sample > bits_per_coded_sample then
        Res.err (.decodeError "Bits per sample must be <= bits per coded sample for fmt_ext.")
      else do
        let (channel_mask, reader) ← readU32le reader
        let (sub_format_guid, reader) ← readBytes 16 reader
        let codec ←
          if sub_format_guid = guidPCM then
            if bits_per_coded_sample > 32 then
              Res.err (.decodeError "Bits per sample for fmt_ext PCM sub-type must be <= 32 bits.")
            else if bits_per_coded_sample = 8 then pure CodecType.pcmU8
            else if bits_per_coded_sample = 16 then pure CodecType.pcmS16le
            else if bits_per_coded_sample = 24 then pure CodecType.pcmS24le
            else if bits_per_coded_sample = 32 then pure CodecType.pcmS32le
            else Res.panicked
          else if sub_format_guid = guidIEEE then
            if bits_per_sample ≠ bits_per_coded_sample then
              Res.err (.decodeError "Bits per sample for fmt_ext IEEE sub-type must equal bits per coded sample.")
            else if bits_per_coded_sample = 32 then pure CodecType.pcmF32le
            else if bits_per_coded_sample = 64 then pure CodecType.pcmF64le
            else Res.err (.decodeError "Bits per sample for fmt_ext IEEE sub-type must be 32 or 64 bits.")
          else if sub_format_guid = guidALAW then pure CodecType.pcmAlaw
          else if sub_format_guid = guidMULAW then pure CodecType.pcmMulaw
          else Res.err (.unsupportedError "Unsupported fmt_ext sub-type.")
        let channels := map_wave_channels channel_mask
        pure (.extensible ⟨bits_per_sample, bits_per_coded_sample, channels,
          sub_format_guid, codec⟩, reader)

/-- `WaveFormatChunk::read_alaw_pcm_fmt`. -/
def WaveFormatChunk.read_alaw_pcm_fmt (reader : MSS) (n_channels : Nat)
    (len : Nat) : Res (WaveFormatData × MSS) := do
  if len ≠ 18 then Res.err (.decodeError "Malformed fmt_alaw chunk.")
  else do
    let (extra_size, reader) ← readU16le reader
    let reader ←
      if extra_size > 0 then do
        let (_, reader) ← ignoreBytes extra_size reader
        pure reader
      else pure reader
    let channels ←
      if n_channels = 1 then pure CH_FRONT_LEFT
      else if n_channels = 2 then pure (CH_FRONT_LEFT ||| CH_FRONT_RIGHT)
      else Res.err (.decodeError "Only mono and stereo channel layouts are supported for fmt_alaw.")
    pure (.alaw ⟨channels, CodecType.pcmAlaw⟩, reader)

/-- `WaveFormatChunk::read_mulaw_pcm_fmt`. -/
def WaveFormatChunk.read_mulaw_pcm_fmt (reader : MSS) (n_channels : Nat)
    (len : Nat) : Res (WaveFormatData × MSS) := do
  if len ≠ 18 then Res.err (.decodeError "Malformed fmt_mulaw chunk.")
  else do
    let (extra_size, reader) ← readU16le reader
    let reader ←
      if extra_size > 0 then do
        let (_, reader) ← ignoreBytes extra_size reader
        pure reader
      else pure reader
    let channels ←
      if n_channels = 1 then pure CH_FRONT_LEFT
      else if n_channels = 2 then pure (CH_FRONT_LEFT ||| CH_FRONT_RIGHT)
      else Res.err (.decodeError "Only mono and stereo channel layouts are supported for fmt_mulaw.")
    pure (.mulaw ⟨channels, CodecType.pcmMulaw⟩, reader)

/-- `WaveFormatChunk::parse` (the `ParseChunk` impl): reads the 16-byte common
prelude and dispatches on the 16-bit format tag. -/
def WaveFormatChunk.parse (reader : MSS) (_tag : List Nat) (len : Nat) :
    Res (WaveFormatChunk × MSS) := do
  if len < 16 then Res.err (.decodeError "Malformed fmt chunk.")
  else do
    let (format, reader) ← readU16le reader
    let (n_channels, reader) ← readU16le reader
    let (sample_rate, reader) ← readU32le reader
    let (avg_bytes_per_sec, reader) ← readU32le reader
    let (block_align, reader) ← readU16le reader
    let (bits_per_sample, reader) ← readU16le reader
    let (format_data, reader) ←
      if format = 1 then WaveFormatChunk.read_pcm_fmt reader bits_per_sample n_channels len
      else if format = 3 then WaveFormatChunk.read_ieee_fmt reader bits_per_sample n_channels len
      else if format = 65534 then WaveFormatChunk.read_ext_fmt reader bits_per_sample len
      else if format = 6 then WaveFormatChunk.read_alaw_pcm_fmt reader n_channels len
      else if format = 7 then WaveFormatChunk.read_mulaw_pcm_fmt reader n_channels len
      else Res.err (.unsupportedError "Unsupported wave format.")
    pure (⟨n_channels, sample_rate, avg_bytes_per_sec, block_align, format_data⟩, reader)

/-- UTF-8 validity of a byte sequence (RFC 3629 ranges); models the success
condition of `String::from_utf8`, whose `.unwrap()` in the AIFF text and
comment parsers panics on invalid data. -/
def utf8Valid : List Nat → Bool
  | [] => true
  | b :: r =>
    if b ≤ 127 then utf8Valid r
    else if 194 ≤ b ∧ b ≤ 223 then
      match r with
      | c1 :: r1 => decide (128 ≤ c1 ∧ c1 ≤ 191) && utf8Valid r1
      | [] => false
    else if b = 224 then
      match r with
      | c1 :: c2 :: r2 =>
        decide (160 ≤ c1 ∧ c1 ≤ 191) && decide (128 ≤ c2 ∧ c2 ≤ 191) && utf8Valid r2
      | _ => false
    else if (225 ≤ b ∧ b ≤ 236) ∨ b = 238 ∨ b = 239 then
      match r with
      | c1 :: c2 :: r2 =>
        decide (128 ≤ c1 ∧ c1 ≤ 191) && decide (128 ≤ c2 ∧ c2 ≤ 191) && utf8Valid r2
      | _ => false
    else if b = 237 then
      match r with
      | c1 :: c2 :: r2 =>
        decide (128 ≤ c1 ∧ c1 ≤ 159) && decide (128 ≤ c2 ∧ c2 ≤ 191) && utf8Valid r2
      | _ => false
    else if b = 240 then
      match r with
      | c1 :: c2 :: c3 :: r3 =>
        decide (144 ≤ c1 ∧ c1 ≤ 191) && decide (128 ≤ c2 ∧ c2 ≤ 191) &&
          decide (128 ≤ c3 ∧ c3 ≤ 191) && utf8Valid r3
      | _ => false
    else if 241 ≤ b ∧ b ≤ 243 then
      match r with
      | c1 :: c2 :: c3 :: r3 =>
        decide (128 ≤ c1 ∧ c1 ≤ 191) && decide (128 ≤ c2 ∧ c2 ≤ 191) &&
          decide (128 ≤ c3 ∧ c3 ≤ 191) && utf8Valid r3
      | _ => false
    else if b = 244 then
      match r with
      | c1 :: c2 :: c3 :: r3 =>
        decide (128 ≤ c1 ∧ c1 ≤ 143) && decide (128 ≤ c2 ∧ c2 ≤ 191) &&
          decide (128 ≤ c3 ∧ c3 ≤ 191) && utf8Valid r3
      | _ => false
    else false

structure AiffFormatPcm where
  channels : Nat
  bits_per_sample : Nat
  codec : CodecType
deriving DecidableEq

inductive AiffFormatData where
  | pcm (d : AiffFormatPcm)
deriving DecidableEq

structure CommonChunk where
  chunk_size : Nat
  num_channels : Nat
  num_sample_frames : Nat
  sample_size : Nat
  sample_rate : Nat
  format_data : AiffFormatData
deriving DecidableEq

/-- `CommonChunk::read_pcm_fmt` from `symphonia-format-aiff/src/chunks.rs`.
The `reader` parameter of the source is unused; `bits_per_sample` and
`num_channels` are `i16` bit patterns (negative values fall through to the
error arms exactly as in the source). -/
def CommonChunk.read_pcm_fmt (bits_per_sample num_channels : Nat) (_len : Nat) :
    Res AiffFormatData := do
  let codec ←
    if bits_per_sample = 8 then pure CodecType.pcmU8
    else if bits_per_sample = 16 then pure CodecType.pcmS16be
    else if bits_per_sample = 24 then pure CodecType.pcmS24be
    else if bits_per_sample = 32 then pure CodecType.pcmS32be
    else Res.err (.decodeError "aiff: bits per sample for fmt must be 8, 16, 24 or 32 bits")
  let channels ←
    if num_channels = 1 then pure CH_FRONT_LEFT
    else if num_channels = 2 then pure (CH_FRONT_LEFT ||| CH_FRONT_RIGHT)
    else if num_channels = 3 then pure (CH_FRONT_LEFT ||| CH_FRONT_RIGHT ||| CH_FRONT_CENTRE)
    else if num_channels = 4 then
      pure (CH_FRONT_LEFT ||| CH_FRONT_CENTRE ||| CH_FRONT_RIGHT ||| CH_REAR_CENTRE)
    else if num_channels = 6 then
      pure (CH_FRONT_LEFT ||| CH_FRONT_LEFT_CENTRE ||| CH_FRONT_CENTRE |||
        CH_FRONT_RIGHT ||| CH_FRONT_RIGHT_CENTRE ||| CH_REAR_CENTRE)
    else Res.err (.decodeError "aiff: unsupported channels")
  pure (.pcm ⟨channels, bits_per_sample, codec⟩)

/-- `CommonChunk::parse` (the `ParseChunk` impl). `extParse` stands for
`extended::parse_extended_precision_bytes`, whose module is not under `src/`;
the spec says only that the sample rate is an 80-bit extended-precision float,
so the conversion is kept as a parameter (theorems quantify over it). The
source unwraps the 10-byte read, unwraps the `read_pcm_fmt` result, and builds
`chunk_size` with `len.try_into::<i32>().unwrap()` — all modelled as panics. -/
def CommonChunk.parse (extParse : List Nat → Except Unit Nat) (reader : MSS)
    (tag : List Nat) (len : Nat) : Res (CommonChunk × MSS) := do
  if tag ≠ idCOMM then Res.err (.decodeError "aiff: malformed common chunk")
  else do
    let (num_channels, reader) ← read_i16_be reader
    let (num_sample_frames, reader) ← readU32be reader
    let (sample_size, reader) ← read_i16_be reader
    let (sample_rate_bytes, reader) ← readBytesPanic 10 reader
    let sample_rate ←
      match extParse sample_rate_bytes with
      | .ok s => pure s
      | .error () => Res.err (.decodeError "aiff: failed to parse sample rate")
    let format_data ←
      match CommonChunk.read_pcm_fmt sample_size num_channels len with
      | .ok d => pure d
      | _ => Res.panicked
    if len < 2147483648 then
      pure (⟨len, num_channels, num_sample_frames, sample_size, sample_rate, format_data⟩,
        reader)
    else Res.panicked

/-- `TextChunkType`; the source constructor for annotation chunks is renamed
`annot` here for lexical reasons only. -/
inductive TextChunkType where
  | name
  | author
  | copyright
  | annot
deriving DecidableEq

structure TextChunk where
  chunk_type : TextChunkType
  chunk_size : Nat
  text : List Nat
  seek_size : Option Nat
deriving DecidableEq

/-- `TextChunk::parse`: the payload read and the UTF-8 conversion are both
unwrapped by the source (panic on failure), as is the `i32` conversion of
`len` for `chunk_size`. The text is kept as raw bytes. -/
def TextChunk.parse (reader : MSS) (tag : List Nat) (len : Nat) :
    Res (TextChunk × MSS) := do
  let chunk_type ←
    if tag = idNAME then pure TextChunkType.name
    else if tag = idAUTH then pure TextChunkType.author
    else if tag = idCOPY then pure TextChunkType.copyright
    else if tag = idANNO then pure TextChunkType.annot
    else Res.err (.decodeError "aiff: unsupported text chunk")
  let (text, reader) ← readBytesPanic len reader
  if utf8Valid text then
    if len < 2147483648 then
      pure (⟨chunk_type, len, text, none⟩, reader)
    else Res.panicked
  else Res.panicked

structure ByteRange where
  start_pos : Nat
  end_pos : Nat
deriving DecidableEq

structure SoundDataChunk where
  chunk_size : Nat
  offset : Nat
  block_size : Nat
  sound_size : Nat
  data_range : ByteRange
deriving DecidableEq

/-- `SoundDataChunk::parse`: records `data_start_pos` at the read position
reached when the parser is invoked (before the 8-byte offset/block-size
preamble is read), computes `sound_size = len - 8` with unchecked `u32`
subtraction (wrapping in release builds), seeks forward over the sound data,
and builds `chunk_size` with `len.try_into::<i32>().unwrap()` (panic when
`len` exceeds `i32::MAX`). -/
def SoundDataChunk.parse (reader : MSS) (tag : List Nat) (len : Nat) :
    Res (SoundDataChunk × MSS) := do
  if tag ≠ idSSND then Res.err (.decodeError "aiff: malformed sound chunk")
  else do
    let data_start_pos := reader.pos
    let (offset, reader) ← readU32be reader
    let (block_size, reader) ← readU32be reader
    let sound_size := wsub len 8
    let data_end_pos := data_start_pos + sound_size
    let reader := reader.adv sound_size
    if len < 2147483648 then
      pure (⟨len, offset, block_size, sound_size, ⟨data_start_pos, data_end_pos⟩⟩, reader)
    else Res.panicked

structure ID3v2Chunk where
  chunk_size : Nat
deriving DecidableEq

/-- `ID3v2Chunk::parse`: seeks forward over the payload, discarding the seek
result (the source ignores the returned `Result`). -/
def ID3v2Chunk.parse (reader : MSS) (tag : List Nat) (len : Nat) :
    Res (ID3v2Chunk × MSS) :=
  if tag ≠ idID3 then .err (.decodeError "aiff: malformed id3v2 chunk")
  else .ok (⟨len⟩, reader.adv len)

structure Comment where
  timestamp : Nat
  marker_id : Nat
  count : Nat
  text : List Nat
deriving DecidableEq

/-- `Comment::parse` (the `Parse` impl): the text read and the UTF-8
conversion are unwrapped by the source. -/
def Comment.parse (reader : MSS) : Res (Comment × MSS) := do
  let (timestamp, reader) ← readU32be reader
  let (marker_id, reader) ← read_i16_be reader
  let (count, reader) ← readU16be reader
  let (str_buf, reader) ← readBytesPanic count reader
  if utf8Valid str_buf then pure (⟨timestamp, marker_id, count, str_buf⟩, reader)
  else Res.panicked

/-- The `for _ in 0..num_comments` loop of `CommentsChunk::parse`. -/
def parseComments : Nat → MSS → Res (List Comment × MSS)
  | 0, reader => .ok ([], reader)
  | n + 1, reader => do
    let (c, reader) ← Comment.parse reader
    let (cs, reader) ← parseComments n reader
    pure (c :: cs, reader)

structure CommentsChunk where
  size : Nat
  num_comments : Nat
  comments : List Comment
deriving DecidableEq

/-- `CommentsChunk::parse` (its malformed-tag message reuses the id3v2 text in
the source). -/
def CommentsChunk.parse (reader : MSS) (tag : List Nat) (len : Nat) :
    Res (CommentsChunk × MSS) := do
  if tag ≠ idCOMT then Res.err (.decodeError "aiff: malformed id3v2 chunk")
  else do
    let (num_comments, reader) ← readU16be reader
    let (comments, reader) ← parseComments num_comments reader
    if len < 2147483648 then pure (⟨len, num_comments, comments⟩, reader)
    else Res.panicked

/-- Modelled from the spec: the codec-parameter sink of the external core
library, with the fields the AIFF reader populates. -/
structure CodecParameters where
  codec : Option CodecType := none
  sample_rate : Option Nat := none
  time_base : Option (Nat × Nat) := none
  n_frames : Option Nat := none
  bits_per_coded_sample : Option Nat := none
  channels : Option Nat := none
  max_frames_per_packet : Option Nat := none
deriving DecidableEq

/-- `CodecParameters::new()`. -/
def CodecParameters.new : CodecParameters := {}

structure Track where
  id : Nat
  codec_params : CodecParameters
deriving DecidableEq

/-- `AIFF_MAX_FRAMES_PER_PACKET` from `symphonia-format-aiff/src/lib.rs`. -/
def AIFF_MAX_FRAMES_PER_PACKET : Nat := 1029

/-- `append_common_params` from `symphonia-format-aiff/src/lib.rs`. The
`common.sample_rate as u32` cast is applied to the modelled sample-rate
value. -/
def append_common_params (codec_params : CodecParameters) (common : CommonChunk) :
    CodecParameters :=
  let p := { codec_params with
    max_frames_per_packet := some AIFF_MAX_FRAMES_PER_PACKET,
    sample_rate := some (common.sample_rate % u32Mod),
    time_base := some (1, common.sample_rate % u32Mod) }
  let p :=
    match common.format_data with
    | .pcm pcm => { p with
        codec := some pcm.codec,
        bits_per_coded_sample := some pcm.bits_per_sample,
        channels := some pcm.channels }
  if common.num_sample_frames > 0 then { p with n_frames := some common.num_sample_frames }
  else p

/-- The state of an opened AIFF reader (`AiffReader`). -/
structure AiffReader where
  reader : MSS
  tracks : List Track
  cues : List Nat
  frame_len : Nat
  data_start_pos : Nat
  data_end_pos : Nat
deriving DecidableEq

/-- The chunk-scanning loop of `AiffReader::try_new`. `fuel` bounds the loop
iterations. The source matches `chunk.unwrap()`, so the traversal engine's
`None` ("no more chunks") is a panic. The source's `match` has no arm for
`AiffChunks::Comment` (it is non-exhaustive as written); that case is modelled
as parse-and-continue like the other metadata arms, and no theorem below
depends on the choice. -/
def tryNewLoop (extParse : List Nat → Except Unit Nat) :
    Nat → ChunksState → CodecParameters → Nat → MSS → Res AiffReader
  | 0, _, _, _, _ => .err .ioError
  | fuel + 1, st, codec_params, frame_len, source =>
    match aiffNext st source with
    | .err e => .err e
    | .panicked => .panicked
    | .ok (chunk, st, source) =>
      match chunk with
      | none => .panicked
      | some (.common tag len) =>
        match CommonChunk.parse extParse source tag len with
        | .err e => .err e
        | .panicked => .panicked
        | .ok (common, source) =>
          tryNewLoop extParse fuel st (append_common_params codec_params common)
            common.num_sample_frames source
      | some (.name tag len) =>
        match TextChunk.parse source tag len with
        | .err e => .err e
        | .panicked => .panicked
        | .ok (_, source) => tryNewLoop extParse fuel st codec_params frame_len source
      | some (.sound tag len) =>
        match SoundDataChunk.parse source tag len with
        | .err e => .err e
        | .panicked => .panicked
        | .ok (sound, source) =>
          -- seek(SeekFrom::Start(data_start_pos)).unwrap()
          let source := { source with pos := sound.data_range.start_pos }
          .ok { reader := source,
                tracks := [⟨0, codec_params⟩],
                cues := [],
                frame_len := 4,
                data_start_pos := sound.data_range.start_pos,
                data_end_pos := sound.data_range.end_pos }
      | some (.id3 tag len) =>
        match ID3v2Chunk.parse source tag len with
        | .err e => .err e
        | .panicked => .panicked
        | .ok (_, source) => tryNewLoop extParse fuel st codec_params frame_len source
      | some (.comment tag len) =>
        match CommentsChunk.parse source tag len with
        | .err e => .err e
        | .panicked => .panicked
        | .ok (_, source) => tryNewLoop extParse fuel st codec_params frame_len source

/-- Model of `AiffReader::try_new`: validates the FORM marker, reads the
declared form length (via the panicking `util::read_i32_be`, reinterpreted
`as u32`), validates the form type, then scans chunks. -/
def tryNew (extParse : List Nat → Except Unit Nat) (fuel : Nat) (source : MSS) :
    Res AiffReader :=
  match readBytes 4 source with
  | .err e => .err e
  | .panicked => .panicked
  | .ok (marker, source) =>
    if marker ≠ idFORM then .err (.unsupportedError "aiff: missing form marker")
    else
      match read_i32_be source with
      | .err e => .err e
      | .panicked => .panicked
      | .ok (form_len, source) =>
        match readBytesPanic 4 source with
        | .err e => .err e
        | .panicked => .panicked
        | .ok (form_type, source) =>
          if form_type = idAIFF then
            tryNewLoop extParse fuel ⟨form_len, 0⟩ CodecParameters.new 0 source
          else if form_type = idAIFC then
            .err (.unsupportedError "aiff: aiff-c is not supported")
          else .err (.decodeError "aiff: unsupported form type")

structure SeekedTo where
  track_id : Nat
  actual_ts : Nat
  required_ts : Nat
deriving DecidableEq

/-- Model of `AiffReader::seek` for a timestamp target on the (seekable) model
stream. The `SeekTo::Time` conversion through `TimeBase` involves the external
floating-point time base and is not modelled. -/
def AiffReader.seek (r : AiffReader) (ts : Nat) : Res (SeekedTo × AiffReader) :=
  if r.tracks.isEmpty ∨ r.frame_len = 0 then .err .seekUnseekable
  else
    let go : Res (SeekedTo × AiffReader) :=
      let seek_pos := r.data_start_pos + ts * r.frame_len
      .ok (⟨0, ts, ts⟩, { r with reader := { r.reader with pos := seek_pos } })
    match (r.tracks.headD ⟨0, CodecParameters.new⟩).codec_params.n_frames with
    | some n_frames => if ts > n_frames then .err .seekOutOfRange else go
    | none => go

structure Packet where
  track_id : Nat
  ts : Nat
  dur : Nat
  buf : List Nat
deriving DecidableEq

/-- The `num_frames_left` computation of `AiffReader::next_packet`. -/
def AiffReader.num_frames_left (r : AiffReader) : Nat :=
  if r.reader.pos < r.data_end_pos then (r.data_end_pos - r.reader.pos) / r.frame_len
  else 0

/-- Model of `AiffReader::next_packet`. The `u64` divisions are modelled by
`Nat` division; Rust would panic at `frame_len = 0` where `Nat` division
yields 0, but every reader produced by `tryNew` has `frame_len = 4` and the
theorems about this function assume a positive frame length. -/
def AiffReader.next_packet (r : AiffReader) : Res (Packet × AiffReader) :=
  let pos := r.reader.pos
  if r.num_frames_left = 0 then .err .endOfStream
  else
    let dur := min r.num_frames_left AIFF_MAX_FRAMES_PER_PACKET
    let packet_len := dur * r.frame_len
    match readBytes packet_len r.reader with
    | .err e => .err e
    | .panicked => .panicked
    | .ok (packet_buf, reader) =>
      let pts := (pos - r.data_start_pos) / r.frame_len
      .ok (⟨0, pts, dur, packet_buf⟩, { r with reader := reader })

theorem MSS.drop_adv (s : MSS) (n : Nat) (xs : List Nat)
    (h : s.data.drop s.pos = xs) :
    (s.adv n).data.drop (s.adv n).pos = xs.drop n := by
  show s.data.drop (s.pos + n) = xs.drop n
  rw [← h, ← List.drop_drop]

theorem readBytes_of (s : MSS) (bs r : List Nat)
    (h : s.data.drop s.pos = bs ++ r) :
    readBytes bs.length s = .ok (bs, s.adv bs.length) := by
  unfold readBytes
  rw [h, List.take_left]
  simp

theorem readBytes_of_len (s : MSS) (n : Nat) (bs r : List Nat)
    (h : s.data.drop s.pos = bs ++ r) (hl : bs.length = n) :
    readBytes n s = .ok (bs, s.adv n) := by
  subst hl; exact readBytes_of s bs r h

theorem drop_readBytes (s : MSS) (n : Nat) (bs r : List Nat)
    (h : s.data.drop s.pos = bs ++ r) (hl : bs.length = n) :
    (s.adv n).data.drop (s.adv n).pos = r := by
  rw [MSS.drop_adv s n _ h, ← hl, List.drop_left]

theorem leVal_u16le (n : Nat) (hn : n < 65536) : leVal (u16le n) = n := by
  simp only [u16le, leVal]
  omega

theorem leVal_u32le (n : Nat) (hn : n < 4294967296) : leVal (u32le n) = n := by
  simp only [u32le, leVal]
  omega

theorem beVal_u32be (n : Nat) (hn : n < 4294967296) : beVal (u32be n) = n := by
  simp only [u32be, beVal, List.foldl]
  omega

theorem beVal_u16be (n : Nat) (hn : n < 65536) : beVal (u16be n) = n := by
  simp only [u16be, beVal, List.foldl]
  omega

theorem readU16le_of (s : MSS) (n : Nat) (r : List Nat) (hn : n < 65536)
    (h : s.data.drop s.pos = u16le n ++ r) :
    readU16le s = .ok (n, s.adv 2) := by
  unfold readU16le
  rw [readBytes_of_len s 2 (u16le n) r h (by simp [u16le])]
  simp [leVal_u16le n hn]

theorem readU32le_of (s : MSS) (n : Nat) (r : List Nat) (hn : n < 4294967296)
    (h : s.data.drop s.pos = u32le n ++ r) :
    readU32le s = .ok (n, s.adv 4) := by
  unfold readU32le
  rw [readBytes_of_len s 4 (u32le n) r h (by simp [u32le])]
  simp [leVal_u32le n hn]

theorem readU32be_of (s : MSS) (n : Nat) (r : List Nat) (hn : n < 4294967296)
    (h : s.data.drop s.pos = u32be n ++ r) :
    readU32be s = .ok (n, s.adv 4) := by
  unfold readU32be
  rw [readBytes_of_len s 4 (u32be n) r h (by simp [u32be])]
  simp [beVal_u32be n hn]

theorem read_i32_be_of (s : MSS) (n : Nat) (r : List Nat) (hn : n < 4294967296)
    (h : s.data.drop s.pos = u32be n ++ r) :
    read_i32_be s = .ok (n, s.adv 4) := by
  unfold read_i32_be readBytesPanic
  rw [readBytes_of_len s 4 (u32be n) r h (by simp [u32be])]
  simp [beVal_u32be n hn]

theorem ignoreBytes_of (s : MSS) (n : Nat) (p r : List Nat)
    (h : s.data.drop s.pos = p ++ r) (hl : p.length = n) :
    ignoreBytes n s = .ok ((), s.adv n) := by
  unfold ignoreBytes
  rw [readBytes_of_len s n p r h hl]

theorem wadd_eq (a b : Nat) (h : a + b < u32Mod) : wadd a b = a + b :=
  Nat.mod_eq_of_lt h

theorem wsub_eq (a b : Nat) (hb : b ≤ a) (ha : a < u32Mod) : wsub a b = a - b := by
  unfold wsub
  rw [show a + u32Mod - b = u32Mod + (a - b) by omega, Nat.add_mod_left]
  exact Nat.mod_eq_of_lt (by omega)

theorem satAdd_eq (a b : Nat) (h : a + b ≤ u32Max) : satAdd a b = a + b :=
  min_eq_left h

theorem padStep_ok (st st' : ChunksState) (s s' : MSS)
    (hlen : st.len ≤ u32Mod - 10)
    (hc : st.consumed ≤ st.len + 1)
    (hodd : st.consumed % 2 = 1 → st.consumed ≤ st.len)
    (h : padStep st s = .ok (st', s')) :
    st'.len = st.len ∧ st.consumed ≤ st'.consumed ∧ st'.consumed ≤ st.len + 1 ∧
      st'.consumed % 2 = 0 := by
  unfold padStep at h
  split at h
  · rename_i hoddc
    have hle := hodd hoddc
    split at h
    · rename_i b s1 hr
      have hw : wadd st.consumed 1 = st.consumed + 1 :=
        wadd_eq _ _ (by unfold u32Mod at *; omega)
      injection h with h1
      injection h1 with h1 h2
      subst h2
      rw [← h1]
      refine ⟨rfl, ?_, ?_, ?_⟩ <;> simp [hw] <;> omega
    · exact Res.noConfusion h
    · exact Res.noConfusion h
  · rename_i hev
    injection h with h1
    injection h1 with h1 h2
    subst h1 h2
    exact ⟨rfl, le_refl _, hc, by omega⟩

theorem wavNext_inv (fuel : Nat) :
    ∀ (st : ChunksState) (s : MSS) (out : Option RiffWaveChunks)
      (st' : ChunksState) (s' : MSS),
    st.len ≤ u32Mod - 10 →
    st.consumed ≤ st.len + 1 →
    (st.consumed % 2 = 1 → st.consumed ≤ st.len) →
    wavNext fuel st s = .ok (out, st', s') →
    st'.len = st.len ∧ st.consumed ≤ st'.consumed ∧ st'.consumed ≤ st.len + 1 ∧
      (st'.consumed % 2 = 1 → st'.consumed ≤ st.len) := by
  induction fuel with
  | zero =>
    intro st s out st' s' _ _ _ h
    exact Res.noConfusion h
  | succ n ih =>
    intro st s out st' s' hlen hc hodd h
    rw [wavNext] at h
    cases hp : padStep st s with
    | err e => rw [hp] at h; exact Res.noConfusion h
    | panicked => rw [hp] at h; exact Res.noConfusion h
    | ok p =>
      obtain ⟨st1, s1⟩ := p
      obtain ⟨hp1, hp2, hp3, hp4⟩ := padStep_ok st st1 s s1 hlen hc hodd hp
      rw [hp] at h
      simp only at h
      have hw8 : wadd st1.consumed 8 = st1.consumed + 8 :=
        wadd_eq _ _ (by unfold u32Mod at *; omega)
      split at h
      · -- no more room for a header: Ok(None)
        injection h with h1
        injection h1 with h1 h2
        injection h2 with h2 h3
        subst h1 h2 h3
        rw [hp1]
        exact ⟨rfl, hp2, by omega, by omega⟩
      · rename_i hroom
        rw [hw8] at hroom
        have hroom' : st1.consumed + 8 ≤ st1.len := by omega
        cases hr4 : readBytes 4 s1 with
        | err e => rw [hr4] at h; exact Res.noConfusion h
        | panicked => rw [hr4] at h; exact Res.noConfusion h
        | ok p4 =>
          obtain ⟨tag, s2⟩ := p4
          rw [hr4] at h
          simp only at h
          cases hr32 : readU32le s2 with
          | err e => rw [hr32] at h; exact Res.noConfusion h
          | panicked => rw [hr32] at h; exact Res.noConfusion h
          | ok p32 =>
            obtain ⟨clen, s3⟩ := p32
            rw [hr32] at h
            simp only at h
            rw [hw8] at h
            have hsub : wsub st1.len (st1.consumed + 8) = st1.len - (st1.consumed + 8) :=
              wsub_eq _ _ (by omega) (by unfold u32Mod at *; omega)
            rw [hsub] at h
            split at h
            · exact Res.noConfusion h
            · rename_i hfit
              have hfit' : clen ≤ st1.len - (st1.consumed + 8) := by omega
              have hwc : wadd (st1.consumed + 8) clen = st1.consumed + 8 + clen :=
                wadd_eq _ _ (by unfold u32Mod at *; omega)
              rw [hwc] at h
              cases hpt : riffWaveParseTag tag clen with
              | some chunk =>
                rw [hpt] at h
                injection h with h1
                injection h1 with h1 h2
                injection h2 with h2 h3
                subst h1 h2 h3
                refine ⟨hp1, ?_, ?_, ?_⟩
                · show st.consumed ≤ st1.consumed + 8 + clen
                  omega
                · show st1.consumed + 8 + clen ≤ st.len + 1
                  omega
                · show (st1.consumed + 8 + clen) % 2 = 1 → st1.consumed + 8 + clen ≤ st.len
                  intro _
                  omega
              | none =>
                rw [hpt] at h
                cases hig : ignoreBytes clen s3 with
                | err e => rw [hig] at h; exact Res.noConfusion h
                | panicked => rw [hig] at h; exact Res.noConfusion h
                | ok pig =>
                  obtain ⟨u, s4⟩ := pig
                  rw [hig] at h
                  simp only at h
                  have hrec := ih ⟨st1.len, st1.consumed + 8 + clen⟩ s4 out st' s'
                    (by show st1.len ≤ u32Mod - 10; omega)
                    (by show st1.consumed + 8 + clen ≤ st1.len + 1; omega)
                    (by show (st1.consumed + 8 + clen) % 2 = 1 → st1.consumed + 8 + clen ≤ st1.len
                        intro _; omega)
                    h
                  obtain ⟨q1, q2, q3, q4⟩ := hrec
                  simp only at q1 q2 q3 q4
                  refine ⟨by rw [q1]; exact hp1, by omega, by omega, by omega⟩

theorem aiffNext_inv (st : ChunksState) (s : MSS) (out : Option AiffChunks)
    (st' : ChunksState) (s' : MSS)
    (hlen : st.len ≤ u32Mod - 10)
    (hc : st.consumed ≤ st.len + 1)
    (hodd : st.consumed % 2 = 1 → st.consumed ≤ st.len)
    (h : aiffNext st s = .ok (out, st', s')) :
    st'.len = st.len ∧ st.consumed ≤ st'.consumed ∧ st'.consumed ≤ st.len + 1 ∧
      (st'.consumed % 2 = 1 → st'.consumed ≤ st.len) := by
  rw [aiffNext] at h
  cases hp : padStep st s with
  | err e => rw [hp] at h; exact Res.noConfusion h
  | panicked => rw [hp] at h; exact Res.noConfusion h
  | ok p =>
    obtain ⟨st1, s1⟩ := p
    obtain ⟨hp1, hp2, hp3, hp4⟩ := padStep_ok st st1 s s1 hlen hc hodd hp
    rw [hp] at h
    simp only at h
    have hw8 : wadd st1.consumed 8 = st1.consumed + 8 :=
      wadd_eq _ _ (by unfold u32Mod at *; omega)
    split at h
    · injection h with h1
      injection h1 with h1 h2
      injection h2 with h2 h3
      subst h1 h2 h3
      exact ⟨hp1, hp2, by omega, by omega⟩
    · rename_i hroom
      rw [hw8] at hroom
      have hroom' : st1.consumed + 8 ≤ st1.len := by omega
      cases hr4 : readBytes 4 s1 with
      | err e => rw [hr4] at h; exact Res.noConfusion h
      | panicked => rw [hr4] at h; exact Res.noConfusion h
      | ok p4 =>
        obtain ⟨tag, s2⟩ := p4
        rw [hr4] at h
        simp only at h
        cases hr32 : read_i32_be s2 with
        | err e => rw [hr32] at h; exact Res.noConfusion h
        | panicked => rw [hr32] at h; exact Res.noConfusion h
        | ok p32 =>
          obtain ⟨clen, s3⟩ := p32
          rw [hr32] at h
          simp only at h
          have hsub : wsub st1.len st1.consumed = st1.len - st1.consumed :=
            wsub_eq _ _ (by omega) (by unfold u32Mod at *; omega)
          rw [hsub] at h
          have hcont : ∀ (hfit : clen ≤ st1.len - st1.consumed ∨
              (st1.len = clen ∧ clen = u32Max)),
              (let st2 : ChunksState := ⟨st1.len, satAdd st1.consumed clen⟩
               match aiffParseTag tag clen with
               | some chunk => Res.ok (some chunk, st2, s3)
               | none => Res.ok (none, st2, s3)) = .ok (out, st', s') →
              st'.len = st.len ∧ st.consumed ≤ st'.consumed ∧
                st'.consumed ≤ st.len + 1 ∧
                (st'.consumed % 2 = 1 → st'.consumed ≤ st.len) := by
            intro hfit hcase
            have hfit' : clen ≤ st1.len - st1.consumed := by
              rcases hfit with hf | ⟨hf1, hf2⟩
              · exact hf
              · exfalso; unfold u32Max u32Mod at *; omega
            have hsat : satAdd st1.consumed clen = st1.consumed + clen :=
              satAdd_eq _ _ (by unfold u32Max u32Mod at *; omega)
            simp only [hsat] at hcase
            cases hpt : aiffParseTag tag clen with
            | some chunk =>
              rw [hpt] at hcase
              injection hcase with h1
              injection h1 with h1 h2
              injection h2 with h2 h3
              subst h1 h2 h3
              refine ⟨hp1, ?_, ?_, ?_⟩
              · show st.consumed ≤ st1.consumed + clen
                omega
              · show st1.consumed + clen ≤ st.len + 1
                omega
              · show (st1.consumed + clen) % 2 = 1 → st1.consumed + clen ≤ st.len
                intro _; omega
            | none =>
              rw [hpt] at hcase
              injection hcase with h1
              injection h1 with h1 h2
              injection h2 with h2 h3
              subst h1 h2 h3
              refine ⟨hp1, ?_, ?_, ?_⟩
              · show st.consumed ≤ st1.consumed + clen
                omega
              · show st1.consumed + clen ≤ st.len + 1
                omega
              · show (st1.consumed + clen) % 2 = 1 → st1.consumed + clen ≤ st.len
                intro _; omega
          split at h
          · rename_i hlt
            split at h
            · exact Res.noConfusion h
            · rename_i hsent
              push_neg at hsent
              exact hcont (Or.inr (by tauto)) h
          · rename_i hge
            exact hcont (Or.inl (by omega)) h

theorem wavFinish_inv (st : ChunksState) (s : MSS) (st' : ChunksState) (s' : MSS)
    (hlen : st.len ≤ u32Mod - 10)
    (hc : st.consumed ≤ st.len + 1)
    (h : wavFinish st s = .ok ((), st', s')) :
    st'.len = st.len ∧ st.consumed ≤ st'.consumed ∧ st'.consumed ≤ st.len + 1 := by
  unfold wavFinish at h
  by_cases hlt : st.consumed < st.len
  · rw [if_pos hlt] at h
    have hsub : wsub st.len st.consumed = st.len - st.consumed :=
      wsub_eq _ _ (by omega) (by unfold u32Mod at *; omega)
    cases hig : ignoreBytes (wsub st.len st.consumed) s with
    | err e => rw [hig] at h; exact Res.noConfusion h
    | panicked => rw [hig] at h; exact Res.noConfusion h
    | ok pig =>
      obtain ⟨u, s1⟩ := pig
      rw [hig] at h
      simp only at h
      have hw : wadd st.consumed (wsub st.len st.consumed) = st.len := by
        rw [hsub, wadd_eq _ _ (by unfold u32Mod at *; omega)]
        omega
      rw [hw] at h
      split at h
      · cases hr : readU8 s1 with
        | err e => rw [hr] at h; exact Res.noConfusion h
        | panicked => rw [hr] at h; exact Res.noConfusion h
        | ok pr =>
          obtain ⟨b, s2⟩ := pr
          rw [hr] at h
          injection h with h1
          injection h1 with h1 h2
          injection h2 with h2 h3
          subst h2 h3
          refine ⟨rfl, ?_, ?_⟩
          · show st.consumed ≤ st.len
            omega
          · show st.len ≤ st.len + 1
            omega
      · injection h with h1
        injection h1 with h1 h2
        injection h2 with h2 h3
        subst h2 h3
        refine ⟨rfl, ?_, ?_⟩
        · show st.consumed ≤ st.len
          omega
        · show st.len ≤ st.len + 1
          omega
  · rw [if_neg hlt] at h
    simp only at h
    split at h
    · cases hr : readU8 s with
      | err e => rw [hr] at h; exact Res.noConfusion h
      | panicked => rw [hr] at h; exact Res.noConfusion h
      | ok pr =>
        obtain ⟨b, s2⟩ := pr
        rw [hr] at h
        injection h with h1
        injection h1 with h1 h2
        injection h2 with h2 h3
        subst h2 h3
        exact ⟨rfl, le_refl _, hc⟩
    · injection h with h1
      injection h1 with h1 h2
      injection h2 with h2 h3
      subst h2 h3
      exact ⟨rfl, le_refl _, hc⟩

theorem aiffFinish_inv (st : ChunksState) (s : MSS) (st' : ChunksState) (s' : MSS)
    (hlen : st.len ≤ u32Mod - 10)
    (hc : st.consumed ≤ st.len + 1)
    (h : aiffFinish st s = .ok ((), st', s')) :
    st'.len = st.len ∧ st.consumed ≤ st'.consumed ∧ st'.consumed ≤ st.len + 1 := by
  unfold aiffFinish at h
  by_cases hlt : st.consumed < st.len
  · rw [if_pos hlt] at h
    have hsub : wsub st.len st.consumed = st.len - st.consumed :=
      wsub_eq _ _ (by omega) (by unfold u32Mod at *; omega)
    cases hig : ignoreBytes (wsub st.len st.consumed) s with
    | err e => rw [hig] at h; exact Res.noConfusion h
    | panicked => rw [hig] at h; exact Res.noConfusion h
    | ok pig =>
      obtain ⟨u, s1⟩ := pig
      rw [hig] at h
      simp only at h
      have hw : wadd st.consumed (wsub st.len st.consumed) = st.len := by
        rw [hsub, wadd_eq _ _ (by unfold u32Mod at *; omega)]
        omega
      rw [hw] at h
      split at h
      · cases hr : readU8 s1 with
        | err e => rw [hr] at h; exact Res.noConfusion h
        | panicked => rw [hr] at h; exact Res.noConfusion h
        | ok pr =>
          obtain ⟨b, s2⟩ := pr
          rw [hr] at h
          injection h with h1
          injection h1 with h1 h2
          injection h2 with h2 h3
          subst h2 h3
          refine ⟨rfl, ?_, ?_⟩
          · show st.consumed ≤ st.len
            omega
          · show st.len ≤ st.len + 1
            omega
      · injection h with h1
        injection h1 with h1 h2
        injection h2 with h2 h3
        subst h2 h3
        refine ⟨rfl, ?_, ?_⟩
        · show st.consumed ≤ st.len
          omega
        · show st.len ≤ st.len + 1
          omega
  · rw [if_neg hlt] at h
    simp only at h
    split at h
    · cases hr : readU8 s with
      | err e => rw [hr] at h; exact Res.noConfusion h
      | panicked => rw [hr] at h; exact Res.noConfusion h
      | ok pr =>
        obtain ⟨b, s2⟩ := pr
        rw [hr] at h
        injection h with h1
        injection h1 with h1 h2
        injection h2 with h2 h3
        subst h2 h3
        exact ⟨rfl, le_refl _, hc⟩
    · injection h with h1
      injection h1 with h1 h2
      injection h2 with h2 h3
      subst h2 h3
      exact ⟨rfl, le_refl _, hc⟩

theorem tryNewLoop_ok (extParse : List Nat → Except Unit Nat) (fuel : Nat) :
    ∀ (st : ChunksState) (cp : CodecParameters) (fl : Nat) (src : MSS)
      (r : AiffReader),
    tryNewLoop extParse fuel st cp fl src = .ok r →
    r.frame_len = 4 ∧ r.reader.pos = r.data_start_pos := by
  induction fuel with
  | zero =>
    intro st cp fl src r h
    exact Res.noConfusion h
  | succ n ih =>
    intro st cp fl src r h
    rw [tryNewLoop] at h
    cases hn : aiffNext st src with
    | err e => rw [hn] at h; exact Res.noConfusion h
    | panicked => rw [hn] at h; exact Res.noConfusion h
    | ok p =>
      obtain ⟨chunk, st1, src1⟩ := p
      rw [hn] at h
      simp only at h
      cases chunk with
      | none => exact Res.noConfusion h
      | some c =>
        cases c with
        | common tag len =>
          simp only at h
          cases hc : CommonChunk.parse extParse src1 tag len with
          | err e => rw [hc] at h; exact Res.noConfusion h
          | panicked => rw [hc] at h; exact Res.noConfusion h
          | ok pc =>
            obtain ⟨common, src2⟩ := pc
            rw [hc] at h
            exact ih _ _ _ _ _ h
        | comment tag len =>
          simp only at h
          cases hc : CommentsChunk.parse src1 tag len with
          | err e => rw [hc] at h; exact Res.noConfusion h
          | panicked => rw [hc] at h; exact Res.noConfusion h
          | ok pc =>
            obtain ⟨cm, src2⟩ := pc
            rw [hc] at h
            exact ih _ _ _ _ _ h
        | id3 tag len =>
          simp only at h
          cases hc : ID3v2Chunk.parse src1 tag len with
          | err e => rw [hc] at h; exact Res.noConfusion h
          | panicked => rw [hc] at h; exact Res.noConfusion h
          | ok pc =>
            obtain ⟨cm, src2⟩ := pc
            rw [hc] at h
            exact ih _ _ _ _ _ h
        | name tag len =>
          simp only at h
          cases hc : TextChunk.parse src1 tag len with
          | err e => rw [hc] at h; exact Res.noConfusion h
          | panicked => rw [hc] at h; exact Res.noConfusion h
          | ok pc =>
            obtain ⟨cm, src2⟩ := pc
            rw [hc] at h
            exact ih _ _ _ _ _ h
        | sound tag len =>
          simp only at h
          cases hc : SoundDataChunk.parse src1 tag len with
          | err e => rw [hc] at h; exact Res.noConfusion h
          | panicked => rw [hc] at h; exact Res.noConfusion h
          | ok pc =>
            obtain ⟨sound, src2⟩ := pc
            rw [hc] at h
            simp only at h
            injection h with h1
            subst h1
            exact ⟨rfl, rfl⟩

theorem tryNew_ok (extParse : List Nat → Except Unit Nat) (fuel : Nat)
    (source : MSS) (r : AiffReader)
    (h : tryNew extParse fuel source = .ok r) :
    r.frame_len = 4 ∧ r.reader.pos = r.data_start_pos := by
  rw [tryNew] at h
  cases h4 : readBytes 4 source with
  | err e => rw [h4] at h; exact Res.noConfusion h
  | panicked => rw [h4] at h; exact Res.noConfusion h
  | ok p =>
    obtain ⟨marker, s1⟩ := p
    rw [h4] at h
    simp only at h
    split at h
    · exact Res.noConfusion h
    · cases h32 : read_i32_be s1 with
      | err e => rw [h32] at h; exact Res.noConfusion h
      | panicked => rw [h32] at h; exact Res.noConfusion h
      | ok p32 =>
        obtain ⟨form_len, s2⟩ := p32
        rw [h32] at h
        simp only at h
        cases hft : readBytesPanic 4 s2 with
        | err e => rw [hft] at h; exact Res.noConfusion h
        | panicked => rw [hft] at h; exact Res.noConfusion h
        | ok pft =>
          obtain ⟨form_type, s3⟩ := pft
          rw [hft] at h
          simp only at h
          split at h
          · exact tryNewLoop_ok extParse fuel _ _ _ _ _ h
          · split at h
            · exact Res.noConfusion h
            · exact Res.noConfusion h

theorem soundParse_ok (reader : MSS) (tag : List Nat) (len : Nat)
    (c : SoundDataChunk) (reader' : MSS)
    (h : SoundDataChunk.parse reader tag len = .ok (c, reader')) :
    c.data_range.start_pos = reader.pos ∧
      c.data_range.end_pos = reader.pos + wsub len 8 := by
  unfold SoundDataChunk.parse at h
  split at h
  · exact Res.noConfusion h
  · simp only [Res.bind_eq] at h
    cases h1 : readU32be reader with
    | err e => rw [h1] at h; exact Res.noConfusion h
    | panicked => rw [h1] at h; exact Res.noConfusion h
    | ok p1 =>
      obtain ⟨off, r1⟩ := p1
      rw [h1] at h
      simp only [Res.bind_ok] at h
      cases h2 : readU32be r1 with
      | err e => rw [h2] at h; exact Res.noConfusion h
      | panicked => rw [h2] at h; exact Res.noConfusion h
      | ok p2 =>
        obtain ⟨blk, r2⟩ := p2
        rw [h2] at h
        simp only [Res.bind_ok] at h
        split at h
        · injection h with h3
          injection h3 with h3 h4
          subst h3
          exact ⟨rfl, rfl⟩
        · exact Res.noConfusion h

/-- C7 counterexample: on a concrete SSND chunk of declared length 16 parsed
at stream position 0, the recorded `DataRegion` start offset is 0, the
position at which the 8-byte offset/block-size preamble begins, not the
position 8 immediately after the preamble as the claim states. -/
theorem c7_counterexample :
    (SoundDataChunk.parse ⟨List.replicate 16 0, 0⟩ idSSND 16 =
      .ok (⟨16, 0, 0, 8, ⟨0, 8⟩⟩, ⟨List.replicate 16 0, 16⟩)) ∧
    (⟨16, 0, 0, 8, ⟨0, 8⟩⟩ : SoundDataChunk).data_range.start_pos ≠ 0 + 8 := by
  decide

/-- C7 amended: when the sound chunk is encountered, the recorded DataRegion
start offset equals the stream position at which the chunk payload begins
(before the 8-byte offset/block-size preamble is read), the end offset is the
start plus the declared length minus 8 (wrapping u32 subtraction), scanning
stops, and when open returns the byte stream is positioned exactly at that
recorded start offset. -/
theorem c7_amended :
    (∀ (reader : MSS) (tag : List Nat) (len : Nat) (c : SoundDataChunk)
       (reader' : MSS),
       SoundDataChunk.parse reader tag len = .ok (c, reader') →
       c.data_range.start_pos = reader.pos ∧
         c.data_range.end_pos = reader.pos + wsub len 8) ∧
    (∀ (extParse : List Nat → Except Unit Nat) (fuel : Nat) (source : MSS)
       (r : AiffReader),
       tryNew extParse fuel source = .ok r → r.reader.pos = r.data_start_pos) :=
  ⟨soundParse_ok,
   fun extParse fuel source r h => (tryNew_ok extParse fuel source r h).2⟩

theorem c7_amended_witness :
    ((⟨16, 0, 0, 8, ⟨0, 8⟩⟩ : SoundDataChunk).data_range.start_pos =
        (⟨List.replicate 16 0, 0⟩ : MSS).pos ∧
      (⟨16, 0, 0, 8, ⟨0, 8⟩⟩ : SoundDataChunk).data_range.end_pos =
        (⟨List.replicate 16 0, 0⟩ : MSS).pos + wsub 16 8) ∧
    (⟨⟨idFORM ++ u32be 100 ++ idAIFF ++ idSSND ++ u32be 16 ++ List.replicate 16 0, 20⟩,
        [⟨0, CodecParameters.new⟩], [], 4, 20, 28⟩ : AiffReader).reader.pos =
      (⟨⟨idFORM ++ u32be 100 ++ idAIFF ++ idSSND ++ u32be 16 ++ List.replicate 16 0, 20⟩,
        [⟨0, CodecParameters.new⟩], [], 4, 20, 28⟩ : AiffReader).data_start_pos :=
  ⟨c7_amended.1 ⟨List.replicate 16 0, 0⟩ idSSND 16 ⟨16, 0, 0, 8, ⟨0, 8⟩⟩
      ⟨List.replicate 16 0, 16⟩ (by decide),
   c7_amended.2 (fun _ => .ok 0) 2
      ⟨idFORM ++ u32be 100 ++ idAIFF ++ idSSND ++ u32be 16 ++ List.replicate 16 0, 0⟩
      ⟨⟨idFORM ++ u32be 100 ++ idAIFF ++ idSSND ++ u32be 16 ++ List.replicate 16 0, 20⟩,
        [⟨0, CodecParameters.new⟩], [], 4, 20, 28⟩ (by decide)⟩

/-- C10: for every AIFF container successfully opened (for any extended
precision parser, any loop fuel and any input stream), the reader's
`frame_len` field equals the constant 4 — the source writes
`frame_len: 4, // TODO: fix me` regardless of the common chunk — and
consequently every byte offset of the form
`start_offset + frame_index * frame_len` is computed with frame length 4. -/
theorem c10_frame_len (extParse : List Nat → Except Unit Nat) (fuel : Nat)
    (source : MSS) (r : AiffReader) (h : tryNew extParse fuel source = .ok r) :
    r.frame_len = 4 ∧
      ∀ ts : Nat, r.data_start_pos + ts * r.frame_len = r.data_start_pos + ts * 4 := by
  have hfl := (tryNew_ok extParse fuel source r h).1
  exact ⟨hfl, fun ts => by rw [hfl]⟩

theorem c10_frame_len_witness :
    (⟨⟨idFORM ++ u32be 100 ++ idAIFF ++ idSSND ++ u32be 16 ++ List.replicate 16 0, 20⟩,
        [⟨0, CodecParameters.new⟩], [], 4, 20, 28⟩ : AiffReader).frame_len = 4 ∧
    ∀ ts : Nat,
      (⟨⟨idFORM ++ u32be 100 ++ idAIFF ++ idSSND ++ u32be 16 ++ List.replicate 16 0, 20⟩,
          [⟨0, CodecParameters.new⟩], [], 4, 20, 28⟩ : AiffReader).data_start_pos + ts *
        (⟨⟨idFORM ++ u32be 100 ++ idAIFF ++ idSSND ++ u32be 16 ++ List.replicate 16 0, 20⟩,
          [⟨0, CodecParameters.new⟩], [], 4, 20, 28⟩ : AiffReader).frame_len =
      (⟨⟨idFORM ++ u32be 100 ++ idAIFF ++ idSSND ++ u32be 16 ++ List.replicate 16 0, 20⟩,
          [⟨0, CodecParameters.new⟩], [], 4, 20, 28⟩ : AiffReader).data_start_pos + ts * 4 :=
  c10_frame_len (fun _ => .ok 0) 2
    ⟨idFORM ++ u32be 100 ++ idAIFF ++ idSSND ++ u32be 16 ++ List.replicate 16 0, 0⟩
    ⟨⟨idFORM ++ u32be 100 ++ idAIFF ++ idSSND ++ u32be 16 ++ List.replicate 16 0, 20⟩,
      [⟨0, CodecParameters.new⟩], [], 4, 20, 28⟩ (by decide)

/-- C8: opening a well-formed AIFF container whose declared form length (4
bytes, just the form type) is exhausted before any sound chunk is found does
not return a missing-required-chunk error: the traversal engine yields the
no-more-chunks signal and `try_new` panics on `chunk.unwrap()`, for every
extended-precision parser. -/
theorem c8_open_panics :
    ∀ extParse : List Nat → Except Unit Nat,
      tryNew extParse 1 ⟨idFORM ++ u32be 4 ++ idAIFF, 0⟩ = .panicked := by
  intro extParse
  rfl

theorem c8_open_panics_witness :
    tryNew (fun _ => .ok 0) 1 ⟨idFORM ++ u32be 4 ++ idAIFF, 0⟩ = .panicked :=
  c8_open_panics (fun _ => .ok 0)

/-- C3: the demuxer's arithmetic on untrusted declared lengths is not checked
or saturating. First conjunct: `SoundDataChunk::parse` computes
`sound_size = len - 8` with plain `u32` subtraction; at declared length 0 it
wraps to 4294967288 (and panics in a debug build), instead of failing with an
error. Second conjunct: the `consumed + 8` check in the WAV reader's `next()`
wraps for `consumed = 4294967288`, letting the loop read a header past the
region and leaving `consumed` smaller than before the call. -/
theorem c3_wrapping :
    (SoundDataChunk.parse ⟨List.replicate 8 0, 0⟩ idSSND 0 =
        .ok (⟨0, 0, 0, 4294967288, ⟨0, 4294967288⟩⟩,
          ⟨List.replicate 8 0, 4294967296⟩) ∧
      wsub 0 8 = 4294967288 ∧ ¬(4294967288 ≤ (0 : Nat))) ∧
    (wavNext 2 ⟨4294967295, 4294967288⟩ ⟨tagDATA ++ u32le 0, 0⟩ =
        .ok (some (.data tagDATA 0), ⟨4294967295, 0⟩, ⟨tagDATA ++ u32le 0, 8⟩) ∧
      (0 : Nat) < 4294967288) := by
  constructor
  · exact ⟨by decide, by decide, by decide⟩
  · exact ⟨by decide, by decide⟩

/-- C1 counterexample: with both the region total and the declared child
length equal to 0xFFFFFFFF (and two bytes already consumed, so the length
exceeds the remaining region bytes), the WAV reader fails with a decode error
while the AIFF reader accepts the sentinel; the validation is not identical
across the two container families and the WAV reader has no sentinel escape. -/
theorem c1_counterexample :
    wavNext 2 ⟨4294967295, 2⟩ ⟨tagDATA ++ u32le 4294967295, 0⟩ =
      .err (.decodeError "Info chunk length exceeds parent List chunk length.") ∧
    aiffNext ⟨4294967295, 2⟩ ⟨idSSND ++ u32be 4294967295, 0⟩ =
      .ok (some (.sound idSSND 4294967295), ⟨4294967295, 4294967295⟩,
        ⟨idSSND ++ u32be 4294967295, 8⟩) := by
  exact ⟨by decide, by decide⟩

/-- C1 amended: the AIFF reader fails with a decode error whenever the
declared child length exceeds the remaining region bytes, except when both
the region total and the child length equal 0xFFFFFFFF, which it accepts as
the unknown-length sentinel; the WAV reader has no sentinel exception and
always fails with a decode error in that situation, so the validation differs
between the two container families. -/
theorem c1_amended :
    (∀ (lenR c clen : Nat) (tag rest : List Nat) (s : MSS),
       s.data.drop s.pos = tag ++ u32be clen ++ rest →
       tag.length = 4 → c % 2 = 0 → c + 8 ≤ lenR → lenR < u32Mod → clen < u32Mod →
       lenR - c < clen →
       ((¬(lenR = u32Max ∧ clen = u32Max) →
           aiffNext ⟨lenR, c⟩ s =
             .err (.decodeError "wav: chunk length exceeds parent (list) chunk length")) ∧
        (lenR = u32Max ∧ clen = u32Max →
           ∃ out, aiffNext ⟨lenR, c⟩ s = .ok out))) ∧
    (∀ (fuel lenR c clen : Nat) (tag rest : List Nat) (s : MSS),
       s.data.drop s.pos = tag ++ u32le clen ++ rest →
       tag.length = 4 → c % 2 = 0 → c + 8 ≤ lenR → lenR < u32Mod → clen < u32Mod →
       lenR - (c + 8) < clen →
       wavNext (fuel + 1) ⟨lenR, c⟩ s =
         .err (.decodeError "Info chunk length exceeds parent List chunk length.")) := by
  constructor
  · intro lenR c clen tag rest s hs htag hev hroom hlen hclen hexceed
    have hpad : padStep ⟨lenR, c⟩ s = .ok (⟨lenR, c⟩, s) := by
      unfold padStep
      rw [if_neg (by simp; omega)]
    have hrd4 : readBytes 4 s = .ok (tag, s.adv 4) :=
      readBytes_of_len s 4 tag (u32be clen ++ rest) (by rw [hs, List.append_assoc]) htag
    have hdrop4 : (s.adv 4).data.drop (s.adv 4).pos = u32be clen ++ rest :=
      drop_readBytes s 4 tag (u32be clen ++ rest) (by rw [hs, List.append_assoc]) htag
    have hrd32 : read_i32_be (s.adv 4) = .ok (clen, (s.adv 4).adv 4) :=
      read_i32_be_of (s.adv 4) clen rest (by unfold u32Mod at hclen; omega) hdrop4
    have hbody : ∀ (res : Res (Option AiffChunks × ChunksState × MSS)),
        aiffNext ⟨lenR, c⟩ s = res →
        ((¬(lenR = u32Max ∧ clen = u32Max) →
            res = .err (.decodeError "wav: chunk length exceeds parent (list) chunk length")) ∧
         (lenR = u32Max ∧ clen = u32Max → ∃ out, res = .ok out)) := by
      intro res hres
      rw [aiffNext, hpad] at hres
      simp only at hres
      rw [if_neg (by
        rw [wadd_eq c 8 (by unfold u32Mod at *; omega)]
        omega)] at hres
      rw [hrd4] at hres
      simp only at hres
      rw [hrd32] at hres
      simp only at hres
      rw [wsub_eq lenR c (by omega) (by omega)] at hres
      rw [if_pos hexceed] at hres
      by_cases hsent : lenR = u32Max ∧ clen = u32Max
      · have hsent2 : lenR = clen ∧ clen = u32Max := ⟨hsent.1.trans hsent.2.symm, hsent.2⟩
        rw [if_neg (not_not_intro hsent2)] at hres
        refine ⟨fun hn => absurd hsent hn, fun _ => ?_⟩
        cases hpt : aiffParseTag tag clen with
        | some chunk =>
          rw [hpt] at hres
          exact ⟨_, hres.symm⟩
        | none =>
          rw [hpt] at hres
          exact ⟨_, hres.symm⟩
      · rw [if_pos (fun hcc => hsent ⟨hcc.1.trans hcc.2, hcc.2⟩)] at hres
        exact ⟨fun _ => hres.symm, fun hy => absurd hy hsent⟩
    exact hbody (aiffNext ⟨lenR, c⟩ s) rfl
  · intro fuel lenR c clen tag rest s hs htag hev hroom hlen hclen hexceed
    have hpad : padStep ⟨lenR, c⟩ s = .ok (⟨lenR, c⟩, s) := by
      unfold padStep
      rw [if_neg (by simp; omega)]
    have hrd4 : readBytes 4 s = .ok (tag, s.adv 4) :=
      readBytes_of_len s 4 tag (u32le clen ++ rest) (by rw [hs, List.append_assoc]) htag
    have hdrop4 : (s.adv 4).data.drop (s.adv 4).pos = u32le clen ++ rest :=
      drop_readBytes s 4 tag (u32le clen ++ rest) (by rw [hs, List.append_assoc]) htag
    have hrd32 : readU32le (s.adv 4) = .ok (clen, (s.adv 4).adv 4) :=
      readU32le_of (s.adv 4) clen rest (by unfold u32Mod at hclen; omega) hdrop4
    rw [wavNext, hpad]
    simp only
    rw [if_neg (by
      rw [wadd_eq c 8 (by unfold u32Mod at *; omega)]
      omega)]
    rw [hrd4]
    simp only
    rw [hrd32]
    simp only
    rw [wadd_eq c 8 (by unfold u32Mod at *; omega)]
    rw [wsub_eq lenR (c + 8) (by omega) (by omega)]
    rw [if_pos hexceed]

theorem c1_amended_witness :
    ((¬((4294967295 : Nat) = u32Max ∧ (4294967295 : Nat) = u32Max) →
        aiffNext ⟨4294967295, 2⟩ ⟨idSSND ++ u32be 4294967295, 0⟩ =
          .err (.decodeError "wav: chunk length exceeds parent (list) chunk length")) ∧
     ((4294967295 : Nat) = u32Max ∧ (4294967295 : Nat) = u32Max →
        ∃ out, aiffNext ⟨4294967295, 2⟩ ⟨idSSND ++ u32be 4294967295, 0⟩ = .ok out)) ∧
    wavNext 1 ⟨4294967295, 2⟩ ⟨tagDATA ++ u32le 4294967295, 0⟩ =
      .err (.decodeError "Info chunk length exceeds parent List chunk length.") :=
  ⟨c1_amended.1 4294967295 2 4294967295 idSSND [] ⟨idSSND ++ u32be 4294967295, 0⟩
      (by decide) (by decide) (by decide) (by decide) (by decide) (by decide) (by decide),
   c1_amended.2 0 4294967295 2 4294967295 tagDATA [] ⟨tagDATA ++ u32le 4294967295, 0⟩
      (by decide) (by decide) (by decide) (by decide) (by decide) (by decide) (by decide)⟩

/-- C2 counterexample: in a WAV region of declared total length 9 holding one
unrecognized chunk of declared length 1, a successful `next()` (returning the
no-more-chunks signal) leaves `consumed = 10 > 9`: the 2-byte-alignment pad
byte is consumed even though the region is already exhausted. -/
theorem c2_counterexample :
    wavNext 3 ⟨9, 0⟩ ⟨[106, 117, 110, 107] ++ u32le 1 ++ [0, 0], 0⟩ =
      .ok (none, ⟨9, 10⟩, ⟨[106, 117, 110, 107] ++ u32le 1 ++ [0, 0], 10⟩) ∧
    ¬((10 : Nat) ≤ 9) := by
  exact ⟨by decide, by decide⟩

/-- C2 amended: for regions whose declared total length is at most
2^32 - 10, after any successful `next()` or `finish()` on either reader,
`consumed ≤ total_length + 1` — the alignment pad byte may overshoot an
odd-length region by exactly one byte — and `consumed` never decreases. The
stated hypotheses (`consumed ≤ len + 1`, and `consumed ≤ len` whenever
`consumed` is odd) hold initially (`consumed = 0`) and are preserved by every
successful call. -/
theorem c2_amended :
    (∀ (fuel : Nat) (st : ChunksState) (s : MSS) (out : Option RiffWaveChunks)
       (st' : ChunksState) (s' : MSS),
       st.len ≤ u32Mod - 10 → st.consumed ≤ st.len + 1 →
       (st.consumed % 2 = 1 → st.consumed ≤ st.len) →
       wavNext fuel st s = .ok (out, st', s') →
       st'.consumed ≤ st'.len + 1 ∧ st.consumed ≤ st'.consumed) ∧
    (∀ (st : ChunksState) (s : MSS) (out : Option AiffChunks)
       (st' : ChunksState) (s' : MSS),
       st.len ≤ u32Mod - 10 → st.consumed ≤ st.len + 1 →
       (st.consumed % 2 = 1 → st.consumed ≤ st.len) →
       aiffNext st s = .ok (out, st', s') →
       st'.consumed ≤ st'.len + 1 ∧ st.consumed ≤ st'.consumed) ∧
    (∀ (st : ChunksState) (s : MSS) (st' : ChunksState) (s' : MSS),
       st.len ≤ u32Mod - 10 → st.consumed ≤ st.len + 1 →
       wavFinish st s = .ok ((), st', s') →
       st'.consumed ≤ st'.len + 1 ∧ st.consumed ≤ st'.consumed) ∧
    (∀ (st : ChunksState) (s : MSS) (st' : ChunksState) (s' : MSS),
       st.len ≤ u32Mod - 10 → st.consumed ≤ st.len + 1 →
       aiffFinish st s = .ok ((), st', s') →
       st'.consumed ≤ st'.len + 1 ∧ st.consumed ≤ st'.consumed) := by
  refine ⟨?_, ?_, ?_, ?_⟩
  · intro fuel st s out st' s' h1 h2 h3 h
    obtain ⟨q1, q2, q3, _⟩ := wavNext_inv fuel st s out st' s' h1 h2 h3 h
    exact ⟨by omega, q2⟩
  · intro st s out st' s' h1 h2 h3 h
    obtain ⟨q1, q2, q3, _⟩ := aiffNext_inv st s out st' s' h1 h2 h3 h
    exact ⟨by omega, q2⟩
  · intro st s st' s' h1 h2 h
    obtain ⟨q1, q2, q3⟩ := wavFinish_inv st s st' s' h1 h2 h
    exact ⟨by omega, q2⟩
  · intro st s st' s' h1 h2 h
    obtain ⟨q1, q2, q3⟩ := aiffFinish_inv st s st' s' h1 h2 h
    exact ⟨by omega, q2⟩

theorem c2_amended_witness :
    ((⟨7, 0⟩ : ChunksState).consumed ≤ (⟨7, 0⟩ : ChunksState).len + 1 ∧
      (⟨7, 0⟩ : ChunksState).consumed ≤ (⟨7, 0⟩ : ChunksState).consumed) ∧
    ((⟨7, 0⟩ : ChunksState).consumed ≤ (⟨7, 0⟩ : ChunksState).len + 1 ∧
      (⟨7, 0⟩ : ChunksState).consumed ≤ (⟨7, 0⟩ : ChunksState).consumed) ∧
    ((⟨8, 8⟩ : ChunksState).consumed ≤ (⟨8, 8⟩ : ChunksState).len + 1 ∧
      (⟨8, 8⟩ : ChunksState).consumed ≤ (⟨8, 8⟩ : ChunksState).consumed) ∧
    ((⟨8, 8⟩ : ChunksState).consumed ≤ (⟨8, 8⟩ : ChunksState).len + 1 ∧
      (⟨8, 8⟩ : ChunksState).consumed ≤ (⟨8, 8⟩ : ChunksState).consumed) :=
  ⟨c2_amended.1 1 ⟨7, 0⟩ ⟨[], 0⟩ none ⟨7, 0⟩ ⟨[], 0⟩ (by decide) (by decide)
      (by decide) (by decide),
   c2_amended.2.1 ⟨7, 0⟩ ⟨[], 0⟩ none ⟨7, 0⟩ ⟨[], 0⟩ (by decide) (by decide)
      (by decide) (by decide),
   c2_amended.2.2.1 ⟨8, 8⟩ ⟨[], 0⟩ ⟨8, 8⟩ ⟨[], 0⟩ (by decide) (by decide) (by decide),
   c2_amended.2.2.2 ⟨8, 8⟩ ⟨[], 0⟩ ⟨8, 8⟩ ⟨[], 0⟩ (by decide) (by decide) (by decide)⟩

/-- C4 counterexample: on an unrecognized tag ("XXXX", declared length 10)
inside a region of length 100 with the full payload available on the stream,
the AIFF reader does not skip the payload and continue: it returns the
terminal no-more-chunks signal with the cursor still at byte 8 (right after
the header, before the payload). -/
theorem c4_counterexample :
    aiffNext ⟨100, 0⟩ ⟨[88, 88, 88, 88] ++ u32be 10 ++ List.replicate 10 7, 0⟩ =
      .ok (none, ⟨100, 10⟩, ⟨[88, 88, 88, 88] ++ u32be 10 ++ List.replicate 10 7, 8⟩) ∧
    aiffParseTag [88, 88, 88, 88] 10 = none ∧
    (8 : Nat) ≠ 8 + 10 := by
  exact ⟨by decide, by decide, by decide⟩

/-- C4 amended: the WAV reader skips exactly the declared payload of an
unrecognized chunk and continues the loop, while the AIFF reader returns the
no-more-chunks signal immediately on the first unrecognized tag, leaving the
payload unskipped; the skip-and-continue policy is not applied uniformly. -/
theorem c4_amended :
    (∀ (fuel lenR c clen : Nat) (tag payload rest : List Nat) (s : MSS),
       s.data.drop s.pos = tag ++ u32le clen ++ payload ++ rest →
       tag.length = 4 → payload.length = clen →
       riffWaveParseTag tag clen = none →
       c % 2 = 0 → c + 8 ≤ lenR → lenR < u32Mod → clen ≤ lenR - (c + 8) →
       wavNext (fuel + 1) ⟨lenR, c⟩ s =
         wavNext fuel ⟨lenR, c + 8 + clen⟩ (s.adv (8 + clen))) ∧
    (∀ (lenR c clen : Nat) (tag payload rest : List Nat) (s : MSS),
       s.data.drop s.pos = tag ++ u32be clen ++ payload ++ rest →
       tag.length = 4 → payload.length = clen →
       aiffParseTag tag clen = none →
       c % 2 = 0 → c + 8 ≤ lenR → lenR < u32Mod → clen ≤ lenR - c →
       aiffNext ⟨lenR, c⟩ s = .ok (none, ⟨lenR, c + clen⟩, s.adv 8)) := by
  constructor
  · intro fuel lenR c clen tag payload rest s hs htag hpay hpt hev hroom hlen hfit
    have hpad : padStep ⟨lenR, c⟩ s = .ok (⟨lenR, c⟩, s) := by
      unfold padStep
      rw [if_neg (by simp; omega)]
    have hshape : s.data.drop s.pos = tag ++ (u32le clen ++ (payload ++ rest)) := by
      rw [hs, ← List.append_assoc, ← List.append_assoc]
    have hrd4 : readBytes 4 s = .ok (tag, s.adv 4) :=
      readBytes_of_len s 4 tag (u32le clen ++ (payload ++ rest)) hshape htag
    have hdrop4 : (s.adv 4).data.drop (s.adv 4).pos = u32le clen ++ (payload ++ rest) :=
      drop_readBytes s 4 tag (u32le clen ++ (payload ++ rest)) hshape htag
    have hrd32 : readU32le (s.adv 4) = .ok (clen, (s.adv 4).adv 4) :=
      readU32le_of (s.adv 4) clen (payload ++ rest) (by unfold u32Mod at *; omega) hdrop4
    have hdrop8 : ((s.adv 4).adv 4).data.drop ((s.adv 4).adv 4).pos = payload ++ rest :=
      drop_readBytes (s.adv 4) 4 (u32le clen) (payload ++ rest) hdrop4 (by simp [u32le])
    have hig : ignoreBytes clen ((s.adv 4).adv 4) = .ok ((), ((s.adv 4).adv 4).adv clen) :=
      ignoreBytes_of ((s.adv 4).adv 4) clen payload rest hdrop8 hpay
    rw [wavNext, hpad]
    simp only
    rw [if_neg (by
      rw [wadd_eq c 8 (by unfold u32Mod at *; omega)]
      omega)]
    rw [hrd4]
    simp only
    rw [hrd32]
    simp only
    rw [wadd_eq c 8 (by unfold u32Mod at *; omega)]
    rw [wsub_eq lenR (c + 8) (by omega) (by omega)]
    rw [if_neg (by omega)]
    have hle : c + 8 + clen ≤ lenR := by omega
    rw [wadd_eq (c + 8) clen (lt_of_le_of_lt hle hlen)]
    rw [hpt, hig]
    simp only
    have hadv : ((s.adv 4).adv 4).adv clen = s.adv (8 + clen) := by
      show ({ s with pos := s.pos + 4 + 4 + clen } : MSS) = { s with pos := s.pos + (8 + clen) }
      rw [MSS.mk.injEq]
      exact ⟨rfl, by omega⟩
    rw [hadv, show c + 8 + clen = c + (8 + clen) by omega]
  · intro lenR c clen tag payload rest s hs htag hpay hpt hev hroom hlen hfit
    have hpad : padStep ⟨lenR, c⟩ s = .ok (⟨lenR, c⟩, s) := by
      unfold padStep
      rw [if_neg (by simp; omega)]
    have hshape : s.data.drop s.pos = tag ++ (u32be clen ++ (payload ++ rest)) := by
      rw [hs, ← List.append_assoc, ← List.append_assoc]
    have hrd4 : readBytes 4 s = .ok (tag, s.adv 4) :=
      readBytes_of_len s 4 tag (u32be clen ++ (payload ++ rest)) hshape htag
    have hdrop4 : (s.adv 4).data.drop (s.adv 4).pos = u32be clen ++ (payload ++ rest) :=
      drop_readBytes s 4 tag (u32be clen ++ (payload ++ rest)) hshape htag
    have hrd32 : read_i32_be (s.adv 4) = .ok (clen, (s.adv 4).adv 4) :=
      read_i32_be_of (s.adv 4) clen (payload ++ rest) (by unfold u32Mod at *; omega) hdrop4
    rw [aiffNext, hpad]
    simp only
    rw [if_neg (by
      rw [wadd_eq c 8 (by unfold u32Mod at *; omega)]
      omega)]
    rw [hrd4]
    simp only
    rw [hrd32]
    simp only
    rw [wsub_eq lenR c (by omega) (by omega)]
    rw [if_neg (by omega)]
    rw [hpt]
    simp only
    have hle : c + clen ≤ lenR := by omega
    rw [satAdd_eq c clen (by unfold u32Max; unfold u32Mod at hlen; omega)]
    have hadv : (s.adv 4).adv 4 = s.adv 8 := by
      show ({ s with pos := s.pos + 4 + 4 } : MSS) = { s with pos := s.pos + 8 }
      rw [MSS.mk.injEq]
      exact ⟨rfl, by omega⟩
    rw [hadv]

theorem c4_amended_witness :
    wavNext 1 ⟨100, 0⟩ ⟨[88, 88, 88, 88] ++ u32le 1 ++ [7], 0⟩ =
      wavNext 0 ⟨100, 9⟩ ((⟨[88, 88, 88, 88] ++ u32le 1 ++ [7], 0⟩ : MSS).adv 9) ∧
    aiffNext ⟨100, 0⟩ ⟨[88, 88, 88, 88] ++ u32be 1 ++ [7], 0⟩ =
      .ok (none, ⟨100, 1⟩, (⟨[88, 88, 88, 88] ++ u32be 1 ++ [7], 0⟩ : MSS).adv 8) :=
  ⟨c4_amended.1 0 100 0 1 [88, 88, 88, 88] [7] [] ⟨[88, 88, 88, 88] ++ u32le 1 ++ [7], 0⟩
      (by decide) (by decide) (by decide) (by decide) (by decide) (by decide)
      (by decide) (by decide),
   c4_amended.2 100 0 1 [88, 88, 88, 88] [7] [] ⟨[88, 88, 88, 88] ++ u32be 1 ++ [7], 0⟩
      (by decide) (by decide) (by decide) (by decide) (by decide) (by decide)
      (by decide) (by decide)⟩

theorem readBytes_ok (n : Nat) (s : MSS) (bs : List Nat) (s' : MSS)
    (h : readBytes n s = .ok (bs, s')) : bs.length = n ∧ s' = s.adv n := by
  simp only [readBytes] at h
  split at h
  · rename_i hl
    injection h with h1
    injection h1 with h1 h2
    subst h1 h2
    exact ⟨hl, rfl⟩
  · exact Res.noConfusion h

theorem readBytes_succeeds (n : Nat) (s : MSS) (h : s.pos + n ≤ s.data.length) :
    readBytes n s = .ok ((s.data.drop s.pos).take n, s.adv n) := by
  unfold readBytes
  rw [if_pos]
  simp only [List.length_take, List.length_drop]
  omega

/-- C9: for every reader state with a positive frame length, `next_packet`
returns the end-of-stream signal (reading nothing) exactly when zero full
frames remain before `data_end_pos`; every returned packet spans
`min(remaining, 1029)` frames, never more than the fixed 1029-frame cap,
reads exactly `dur * frame_len` bytes, and never advances the cursor past
`data_end_pos`; and when frames remain and the stream holds the bytes, a
packet is produced. -/
theorem c9_next_packet (r : AiffReader) (_hfl : 0 < r.frame_len) :
    (r.num_frames_left = 0 → r.next_packet = .err .endOfStream) ∧
    (∀ (p : Packet) (r' : AiffReader), r.next_packet = .ok (p, r') →
       p.dur = min r.num_frames_left AIFF_MAX_FRAMES_PER_PACKET ∧
       p.dur ≤ 1029 ∧
       p.buf.length = p.dur * r.frame_len ∧
       r'.reader.pos = r.reader.pos + p.dur * r.frame_len ∧
       r'.reader.pos ≤ r.data_end_pos) ∧
    (r.num_frames_left ≠ 0 →
       r.reader.pos + min r.num_frames_left AIFF_MAX_FRAMES_PER_PACKET * r.frame_len ≤
         r.reader.data.length →
       ∃ p r', r.next_packet = .ok (p, r')) := by
  refine ⟨?_, ?_, ?_⟩
  · intro h0
    unfold AiffReader.next_packet
    rw [if_pos h0]
  · intro p r' h
    unfold AiffReader.next_packet at h
    by_cases h0 : r.num_frames_left = 0
    · rw [if_pos h0] at h
      exact Res.noConfusion h
    · rw [if_neg h0] at h
      simp only at h
      cases hr : readBytes (min r.num_frames_left AIFF_MAX_FRAMES_PER_PACKET * r.frame_len)
          r.reader with
      | err e => rw [hr] at h; exact Res.noConfusion h
      | panicked => rw [hr] at h; exact Res.noConfusion h
      | ok pr =>
        obtain ⟨buf, rd⟩ := pr
        obtain ⟨hblen, hrd⟩ := readBytes_ok _ _ _ _ hr
        rw [hr] at h
        injection h with h1
        injection h1 with h1 h2
        subst h1 h2
        have hlt : r.reader.pos < r.data_end_pos := by
          by_contra hge
          exact h0 (by unfold AiffReader.num_frames_left; rw [if_neg hge])
        have hnfl : r.num_frames_left = (r.data_end_pos - r.reader.pos) / r.frame_len := by
          unfold AiffReader.num_frames_left
          rw [if_pos hlt]
        have hdur : min r.num_frames_left AIFF_MAX_FRAMES_PER_PACKET ≤
            (r.data_end_pos - r.reader.pos) / r.frame_len := by
          rw [← hnfl]; exact min_le_left _ _
        have hbound : min r.num_frames_left AIFF_MAX_FRAMES_PER_PACKET * r.frame_len ≤
            r.data_end_pos - r.reader.pos := by
          calc min r.num_frames_left AIFF_MAX_FRAMES_PER_PACKET * r.frame_len
              ≤ (r.data_end_pos - r.reader.pos) / r.frame_len * r.frame_len :=
                Nat.mul_le_mul_right _ hdur
            _ ≤ r.data_end_pos - r.reader.pos := Nat.div_mul_le_self _ _
        refine ⟨rfl, ?_, ?_, ?_, ?_⟩
        · show min r.num_frames_left AIFF_MAX_FRAMES_PER_PACKET ≤ 1029
          unfold AIFF_MAX_FRAMES_PER_PACKET
          omega
        · exact hblen
        · show rd.pos = r.reader.pos + min r.num_frames_left AIFF_MAX_FRAMES_PER_PACKET *
            r.frame_len
          rw [hrd]
          rfl
        · show rd.pos ≤ r.data_end_pos
          rw [hrd]
          show r.reader.pos + _ ≤ r.data_end_pos
          omega
  · intro h0 hav
    unfold AiffReader.next_packet
    rw [if_neg h0]
    simp only
    rw [readBytes_succeeds _ _ hav]
    exact ⟨_, _, rfl⟩

theorem c9_next_packet_witness :
    ((⟨⟨List.replicate 8 0, 0⟩, [], [], 4, 0, 8⟩ : AiffReader).num_frames_left = 0 →
       (⟨⟨List.replicate 8 0, 0⟩, [], [], 4, 0, 8⟩ : AiffReader).next_packet =
         .err .endOfStream) ∧
    (∀ (p : Packet) (r' : AiffReader),
       (⟨⟨List.replicate 8 0, 0⟩, [], [], 4, 0, 8⟩ : AiffReader).next_packet = .ok (p, r') →
       p.dur = min (⟨⟨List.replicate 8 0, 0⟩, [], [], 4, 0, 8⟩ : AiffReader).num_frames_left
           AIFF_MAX_FRAMES_PER_PACKET ∧
       p.dur ≤ 1029 ∧
       p.buf.length = p.dur * (⟨⟨List.replicate 8 0, 0⟩, [], [], 4, 0, 8⟩ : AiffReader).frame_len ∧
       r'.reader.pos = (⟨⟨List.replicate 8 0, 0⟩, [], [], 4, 0, 8⟩ : AiffReader).reader.pos +
         p.dur * (⟨⟨List.replicate 8 0, 0⟩, [], [], 4, 0, 8⟩ : AiffReader).frame_len ∧
       r'.reader.pos ≤ (⟨⟨List.replicate 8 0, 0⟩, [], [], 4, 0, 8⟩ : AiffReader).data_end_pos) ∧
    ((⟨⟨List.replicate 8 0, 0⟩, [], [], 4, 0, 8⟩ : AiffReader).num_frames_left ≠ 0 →
       (⟨⟨List.replicate 8 0, 0⟩, [], [], 4, 0, 8⟩ : AiffReader).reader.pos +
           min (⟨⟨List.replicate 8 0, 0⟩, [], [], 4, 0, 8⟩ : AiffReader).num_frames_left
             AIFF_MAX_FRAMES_PER_PACKET *
           (⟨⟨List.replicate 8 0, 0⟩, [], [], 4, 0, 8⟩ : AiffReader).frame_len ≤
         (⟨⟨List.replicate 8 0, 0⟩, [], [], 4, 0, 8⟩ : AiffReader).reader.data.length →
       ∃ p r',
         (⟨⟨List.replicate 8 0, 0⟩, [], [], 4, 0, 8⟩ : AiffReader).next_packet = .ok (p, r')) :=
  c9_next_packet ⟨⟨List.replicate 8 0, 0⟩, [], [], 4, 0, 8⟩ (by decide)


theorem read_pcm_fmt_eval (s : MSS) (bits nch len e : Nat) (payload rest : List Nat)
    (he : e < 65536) (hp : payload.length = e)
    (hs : s.data.drop s.pos = u16le e ++ (payload ++ rest)) :
    WaveFormatChunk.read_pcm_fmt s bits nch len =
      if len = 16 ∨ len = 18 ∨ len = 40 then
        if bits = 8 ∨ bits = 16 ∨ bits = 24 ∨ bits = 32 then
          if nch = 1 ∨ nch = 2 then
            .ok (.pcm ⟨bits,
                if nch = 1 then CH_FRONT_LEFT else CH_FRONT_LEFT ||| CH_FRONT_RIGHT,
                if bits = 8 then .pcmU8 else if bits = 16 then .pcmS16le
                else if bits = 24 then .pcmS24le else .pcmS32le⟩,
              if len = 16 then s else (s.adv 2).adv e)
          else .err (.decodeError
            "Only mono and stereo channel layouts are supported for fmt_pcm.")
        else .err (.decodeError "Bits per sample for fmt_pcm must be 8, 16, 24 or 32 bits.")
      else .err (.decodeError "Malformed fmt_pcm chunk.") := by
  have hread : readU16le s = .ok (e, s.adv 2) := readU16le_of s e (payload ++ rest) he hs
  have hdrop2 : (s.adv 2).data.drop (s.adv 2).pos = payload ++ rest :=
    drop_readBytes s 2 (u16le e) (payload ++ rest) hs (by simp [u16le])
  have hig : ignoreBytes e (s.adv 2) = .ok ((), (s.adv 2).adv e) :=
    ignoreBytes_of (s.adv 2) e payload rest hdrop2 hp
  clear hs hdrop2 hp he
  unfold WaveFormatChunk.read_pcm_fmt
  simp only [Res.bind_eq, Res.pure_eq]
  by_cases h16 : len = 16
  · subst h16
    norm_num
    split_ifs <;> simp_all
  · by_cases h18 : len = 18
    · subst h18
      norm_num
      rw [hread]
      simp only [Res.bind_ok]
      by_cases he0 : e > 0
      · rw [if_pos he0, hig]
        simp only [Res.bind_ok]
        split_ifs <;> simp_all
      · rw [if_neg he0]
        have he' : e = 0 := by omega
        subst he'
        split_ifs <;> simp_all [MSS.adv]
    · by_cases h40 : len = 40
      · subst h40
        norm_num
        rw [hread]
        simp only [Res.bind_ok]
        by_cases he0 : e > 0
        · rw [if_pos he0, hig]
          simp only [Res.bind_ok]
          split_ifs <;> simp_all
        · rw [if_neg he0]
          have he' : e = 0 := by omega
          subst he'
          split_ifs <;> simp_all [MSS.adv]
      · rw [if_neg h16, if_neg h18, if_neg h40]
        rw [if_neg (by push_neg; exact ⟨h16, h18, h40⟩)]
        rfl

/-- C5: for every PCM-tagged format chunk (with the extra-size field and its
payload available on the stream), decoding succeeds iff the declared chunk
length is 16, 18 or 40, bits-per-sample is 8, 16, 24 or 32 and the channel
count is 1 or 2; on success the codec is the unsigned 8-bit or signed
16/24/32-bit little-endian PCM codec selected by bits-per-sample and the
layout is front-left (mono) or front-left plus front-right (stereo); in
particular declared length 16 with 16 bits per sample and 2 channels decodes
to the S16LE stereo descriptor, and any channel count of 3 or more fails as a
malformed (decode) error. -/
theorem c5_pcm_fmt (s : MSS) (bits nch len e : Nat) (payload rest : List Nat)
    (he : e < 65536) (hp : payload.length = e)
    (hs : s.data.drop s.pos = u16le e ++ (payload ++ rest)) :
    ((∃ x, WaveFormatChunk.read_pcm_fmt s bits nch len = .ok x) ↔
      ((len = 16 ∨ len = 18 ∨ len = 40) ∧
        (bits = 8 ∨ bits = 16 ∨ bits = 24 ∨ bits = 32) ∧ (nch = 1 ∨ nch = 2))) ∧
    (∀ (d : WaveFormatData) (s' : MSS),
       WaveFormatChunk.read_pcm_fmt s bits nch len = .ok (d, s') →
       d = .pcm ⟨bits,
         if nch = 1 then CH_FRONT_LEFT else CH_FRONT_LEFT ||| CH_FRONT_RIGHT,
         if bits = 8 then .pcmU8 else if bits = 16 then .pcmS16le
         else if bits = 24 then .pcmS24le else .pcmS32le⟩) ∧
    (WaveFormatChunk.read_pcm_fmt s 16 2 16 =
      .ok (.pcm ⟨16, CH_FRONT_LEFT ||| CH_FRONT_RIGHT, .pcmS16le⟩, s)) ∧
    (3 ≤ nch → ∃ m, WaveFormatChunk.read_pcm_fmt s bits nch len = .err (.decodeError m)) := by
  have heval := read_pcm_fmt_eval s bits nch len e payload rest he hp hs
  have heval2 := read_pcm_fmt_eval s 16 2 16 e payload rest he hp hs
  refine ⟨?_, ?_, ?_, ?_⟩
  · rw [heval]
    constructor
    · intro ⟨x, hx⟩
      split_ifs at hx <;>
        exact ⟨by assumption, by assumption, by assumption⟩
    · rintro ⟨h1, h2, h3⟩
      rw [if_pos h1, if_pos h2, if_pos h3]
      exact ⟨_, rfl⟩
  · intro d s' hd
    rw [heval] at hd
    split_ifs at hd <;>
      first
        | exact Res.noConfusion hd
        | simp_all
  · rw [heval2]
    norm_num
  · intro h3
    rw [heval]
    split_ifs <;>
      first
        | exact ⟨_, rfl⟩
        | (exfalso; rcases ‹nch = 1 ∨ nch = 2› with hn | hn <;> omega)

theorem c5_pcm_fmt_witness :
    ((∃ x, WaveFormatChunk.read_pcm_fmt ⟨u16le 0 ++ ([] ++ []), 0⟩ 16 2 16 = .ok x) ↔
      (((16 : Nat) = 16 ∨ (16 : Nat) = 18 ∨ (16 : Nat) = 40) ∧
        ((16 : Nat) = 8 ∨ (16 : Nat) = 16 ∨ (16 : Nat) = 24 ∨ (16 : Nat) = 32) ∧
        ((2 : Nat) = 1 ∨ (2 : Nat) = 2))) ∧
    (∀ (d : WaveFormatData) (s' : MSS),
       WaveFormatChunk.read_pcm_fmt ⟨u16le 0 ++ ([] ++ []), 0⟩ 16 2 16 = .ok (d, s') →
       d = .pcm ⟨16,
         if (2 : Nat) = 1 then CH_FRONT_LEFT else CH_FRONT_LEFT ||| CH_FRONT_RIGHT,
         if (16 : Nat) = 8 then .pcmU8 else if (16 : Nat) = 16 then .pcmS16le
         else if (16 : Nat) = 24 then .pcmS24le else .pcmS32le⟩) ∧
    (WaveFormatChunk.read_pcm_fmt ⟨u16le 0 ++ ([] ++ []), 0⟩ 16 2 16 =
      .ok (.pcm ⟨16, CH_FRONT_LEFT ||| CH_FRONT_RIGHT, .pcmS16le⟩,
        ⟨u16le 0 ++ ([] ++ []), 0⟩)) ∧
    (3 ≤ 2 → ∃ m, WaveFormatChunk.read_pcm_fmt ⟨u16le 0 ++ ([] ++ []), 0⟩ 16 2 16 =
      .err (.decodeError m)) :=
  c5_pcm_fmt ⟨u16le 0 ++ ([] ++ []), 0⟩ 16 2 16 0 [] [] (by decide) (by decide) (by decide)

theorem read_ext_fmt_eval (s : MSS) (coded len extraSize validBits mask : Nat)
    (guid rest : List Nat)
    (hx : extraSize < 65536) (hv : validBits < 65536) (hm : mask < 4294967296)
    (hg : guid.length = 16)
    (hs : s.data.drop s.pos =
      u16le extraSize ++ (u16le validBits ++ (u32le mask ++ (guid ++ rest)))) :
    WaveFormatChunk.read_ext_fmt s coded len =
      if len < 40 then Res.err (.decodeError "Malformed fmt_ext chunk.")
      else if extraSize ≠ 22 then
        Res.err (.decodeError "Extra data size not 22 bytes for fmt_ext chunk.")
      else if coded &&& 7 ≠ 0 then
        Res.err (.decodeError "Bits per coded sample for fmt_ext must be a multiple of 8 bits.")
      else if validBits > coded then
        Res.err (.decodeError "Bits per sample must be <= bits per coded sample for fmt_ext.")
      else
        Res.bind
          (if guid = guidPCM then
            if coded > 32 then
              Res.err (.decodeError "Bits per sample for fmt_ext PCM sub-type must be <= 32 bits.")
            else if coded = 8 then Res.ok CodecType.pcmU8
            else if coded = 16 then Res.ok CodecType.pcmS16le
            else if coded = 24 then Res.ok CodecType.pcmS24le
            else if coded = 32 then Res.ok CodecType.pcmS32le
            else Res.panicked
          else if guid = guidIEEE then
            if validBits ≠ coded then
              Res.err (.decodeError
                "Bits per sample for fmt_ext IEEE sub-type must equal bits per coded sample.")
            else if coded = 32 then Res.ok CodecType.pcmF32le
            else if coded = 64 then Res.ok CodecType.pcmF64le
            else Res.err (.decodeError
              "Bits per sample for fmt_ext IEEE sub-type must be 32 or 64 bits.")
          else if guid = guidALAW then Res.ok CodecType.pcmAlaw
          else if guid = guidMULAW then Res.ok CodecType.pcmMulaw
          else Res.err (.unsupportedError "Unsupported fmt_ext sub-type."))
          (fun codec => Res.ok (WaveFormatData.extensible
            ⟨validBits, coded, map_wave_channels mask, guid, codec⟩,
            (((s.adv 2).adv 2).adv 4).adv 16)) := by
  have h1 : readU16le s = .ok (extraSize, s.adv 2) :=
    readU16le_of s extraSize _ hx hs
  have hd1 : (s.adv 2).data.drop (s.adv 2).pos =
      u16le validBits ++ (u32le mask ++ (guid ++ rest)) :=
    drop_readBytes s 2 (u16le extraSize) _ hs (by simp [u16le])
  have h2 : readU16le (s.adv 2) = .ok (validBits, (s.adv 2).adv 2) :=
    readU16le_of (s.adv 2) validBits _ hv hd1
  have hd2 : ((s.adv 2).adv 2).data.drop ((s.adv 2).adv 2).pos =
      u32le mask ++ (guid ++ rest) :=
    drop_readBytes (s.adv 2) 2 (u16le validBits) _ hd1 (by simp [u16le])
  have h3 : readU32le ((s.adv 2).adv 2) = .ok (mask, ((s.adv 2).adv 2).adv 4) :=
    readU32le_of ((s.adv 2).adv 2) mask _ hm hd2
  have hd3 : (((s.adv 2).adv 2).adv 4).data.drop (((s.adv 2).adv 2).adv 4).pos =
      guid ++ rest :=
    drop_readBytes ((s.adv 2).adv 2) 4 (u32le mask) _ hd2 (by simp [u32le])
  have h4 : readBytes 16 (((s.adv 2).adv 2).adv 4) =
      .ok (guid, (((s.adv 2).adv 2).adv 4).adv 16) :=
    readBytes_of_len (((s.adv 2).adv 2).adv 4) 16 guid rest hd3 hg
  unfold WaveFormatChunk.read_ext_fmt
  simp only [Res.bind_eq]
  by_cases hl : len < 40
  · rw [if_pos hl, if_pos hl]
  · rw [if_neg hl, if_neg hl]
    rw [h1]
    simp only [Res.bind_ok]
    by_cases hx22 : extraSize ≠ 22
    · rw [if_pos hx22, if_pos hx22]
    · rw [if_neg hx22, if_neg hx22]
      rw [h2]
      simp only [Res.bind_ok]
      by_cases hc7 : coded &&& 7 ≠ 0
      · rw [if_pos hc7, if_pos hc7]
      · rw [if_neg hc7, if_neg hc7]
        by_cases hvb : validBits > coded
        · rw [if_pos hvb, if_pos hvb]
        · rw [if_neg hvb, if_neg hvb]
          rw [h3]
          simp only [Res.bind_ok]
          rw [h4]
          simp only [Res.bind_ok, Res.pure_eq]
          split_ifs <;> rfl

/-- C6: for every extensible-tagged format chunk (with the extra fields
available on the stream): a declared length below 40, an extra-size field not
equal to 22, a bits-per-coded-sample not a multiple of 8, or bits-per-sample
greater than bits-per-coded-sample each fail as a malformed (decode) error;
when the earlier validations pass, the IEEE-float sub-format GUID with valid
bits equal to coded bits in {32, 64} decodes to the corresponding float codec,
while valid bits differing from coded bits fails as malformed; and an
unrecognized sub-format GUID fails with the distinct unsupported error. -/
theorem c6_ext_fmt (s : MSS) (coded len extraSize validBits mask : Nat)
    (guid rest : List Nat)
    (hx : extraSize < 65536) (hv : validBits < 65536) (hm : mask < 4294967296)
    (hg : guid.length = 16)
    (hs : s.data.drop s.pos =
      u16le extraSize ++ (u16le validBits ++ (u32le mask ++ (guid ++ rest)))) :
    (len < 40 → ∃ m, WaveFormatChunk.read_ext_fmt s coded len = .err (.decodeError m)) ∧
    (40 ≤ len → extraSize ≠ 22 →
      ∃ m, WaveFormatChunk.read_ext_fmt s coded len = .err (.decodeError m)) ∧
    (40 ≤ len → extraSize = 22 → coded % 8 ≠ 0 →
      ∃ m, WaveFormatChunk.read_ext_fmt s coded len = .err (.decodeError m)) ∧
    (40 ≤ len → extraSize = 22 → coded % 8 = 0 → validBits > coded →
      ∃ m, WaveFormatChunk.read_ext_fmt s coded len = .err (.decodeError m)) ∧
    (40 ≤ len → extraSize = 22 → coded % 8 = 0 → guid = guidIEEE → validBits = coded →
      ((coded = 32 → WaveFormatChunk.read_ext_fmt s coded len =
          .ok (.extensible ⟨validBits, coded, map_wave_channels mask, guid, .pcmF32le⟩,
            (((s.adv 2).adv 2).adv 4).adv 16)) ∧
       (coded = 64 → WaveFormatChunk.read_ext_fmt s coded len =
          .ok (.extensible ⟨validBits, coded, map_wave_channels mask, guid, .pcmF64le⟩,
            (((s.adv 2).adv 2).adv 4).adv 16)))) ∧
    (40 ≤ len → extraSize = 22 → coded % 8 = 0 → guid = guidIEEE → validBits ≠ coded →
      ∃ m, WaveFormatChunk.read_ext_fmt s coded len = .err (.decodeError m)) ∧
    (40 ≤ len → extraSize = 22 → coded % 8 = 0 → validBits ≤ coded →
      guid ≠ guidPCM → guid ≠ guidIEEE → guid ≠ guidALAW → guid ≠ guidMULAW →
      ∃ m, WaveFormatChunk.read_ext_fmt s coded len = .err (.unsupportedError m)) := by
  have heval := read_ext_fmt_eval s coded len extraSize validBits mask guid rest hx hv hm hg hs
  have hand : coded &&& 7 = coded % 8 := Nat.and_pow_two_sub_one_eq_mod coded 3
  rw [heval, hand]
  refine ⟨?_, ?_, ?_, ?_, ?_, ?_, ?_⟩
  · intro hl
    rw [if_pos hl]
    exact ⟨_, rfl⟩
  · intro hl hx22
    rw [if_neg (by omega), if_pos hx22]
    exact ⟨_, rfl⟩
  · intro hl hx22 hc8
    rw [if_neg (by omega), if_neg (by omega), if_pos hc8]
    exact ⟨_, rfl⟩
  · intro hl hx22 hc8 hvb
    rw [if_neg (by omega), if_neg (by omega), if_neg (by omega), if_pos hvb]
    exact ⟨_, rfl⟩
  · intro hl hx22 hc8 hgu hvc
    subst hgu hvc
    rw [if_neg (by omega), if_neg (by omega), if_neg (by omega), if_neg (by omega)]
    rw [if_neg (by decide), if_pos rfl, if_neg (by omega)]
    constructor
    · intro hc32
      subst hc32
      rfl
    · intro hc64
      subst hc64
      rfl
  · intro hl hx22 hc8 hgu hvc
    subst hgu
    by_cases hvb : validBits > coded
    · rw [if_neg (by omega), if_neg (by omega), if_neg (by omega), if_pos hvb]
      exact ⟨_, rfl⟩
    · rw [if_neg (by omega), if_neg (by omega), if_neg (by omega), if_neg hvb]
      rw [if_neg (by decide), if_pos rfl, if_pos hvc]
      exact ⟨_, rfl⟩
  · intro hl hx22 hc8 hvc hg1 hg2 hg3 hg4
    rw [if_neg (by omega), if_neg (by omega), if_neg (by omega), if_neg (by omega)]
    rw [if_neg hg1, if_neg hg2, if_neg hg3, if_neg hg4]
    exact ⟨_, rfl⟩

theorem c6_ext_fmt_witness :
    WaveFormatChunk.read_ext_fmt
      ⟨u16le 22 ++ (u16le 32 ++ (u32le 3 ++ (guidIEEE ++ []))), 0⟩ 32 40 =
    .ok (.extensible ⟨32, 32, map_wave_channels 3, guidIEEE, .pcmF32le⟩,
      ((((⟨u16le 22 ++ (u16le 32 ++ (u32le 3 ++ (guidIEEE ++ []))), 0⟩ : MSS).adv 2).adv
        2).adv 4).adv 16) :=
  ((c6_ext_fmt ⟨u16le 22 ++ (u16le 32 ++ (u32le 3 ++ (guidIEEE ++ []))), 0⟩ 32 40 22 32 3
      guidIEEE [] (by decide) (by decide) (by decide) (by decide)
      (by decide)).2.2.2.2.1 (by decide) rfl (by decide) rfl rfl).1 rfl
